import Mathlib

/-!
# Verification of the rtl_dtmf DTMF decoding engine

Shallow embedding of `rtl_dtmf.py` (class `DTMF`): the spectral band
extraction, tone classification, button press/release state machine,
code-sequence buffer and engine loop, together with theorems checking the
natural-language specification against this embedding.

Modelling conventions:
* Python strings are Lean `String`s; the button status values are the
  literal strings `""` (idle / NONE), `"DOWN"`, `"HELD"`, `"UP"` used by
  the source.
* Timestamps (`datetime.now()`) are rationals counting seconds; a
  `timedelta.total_seconds()` comparison becomes rational subtraction.
* FFT magnitudes and band intensities are naturals: the source stores
  `np.amax` results into an integer array (`np.array([0] * 8)`), and since
  truncation commutes with `max` on non-negative reals, working with the
  truncated values is exact.
* `signal`, `noise` and the floor division producing `snr` are exact
  rational arithmetic; the single point where the source's floating-point
  semantics is not rational -- floor division by a zero `noise` -- is
  marked by `Option.none` (the engine step is undefined there).
* The fast Fourier transform itself is an external numeric routine; the
  engine step takes the per-chunk magnitude vector as its input, exactly
  as the decoding logic consumes it.
-/

namespace RtlDtmf

/-- `DTMF_FREQ` from rtl_dtmf.py: the 8 DTMF tone center frequencies,
low group first. -/
def DTMF_FREQ : List ℕ := [697, 770, 852, 941, 1209, 1336, 1477, 1633]

/-- `DTMF_START` from rtl_dtmf.py: lower edge of each scanned band. -/
def DTMF_START : List ℕ := [679, 750, 830, 875, 1177, 1301, 1438, 1594]

/-- `DTMF_END` from rtl_dtmf.py: upper edge of each scanned band. -/
def DTMF_END : List ℕ := [715, 791, 874, 1008, 1241, 1371, 1516, 1672]

/-- `KEYS` from rtl_dtmf.py: the (low tone, high tone) ↦ key table. -/
def KEYS : List ((ℕ × ℕ) × String) :=
  [((697, 1209), "1"), ((697, 1336), "2"), ((697, 1477), "3"), ((697, 1633), "A"),
   ((770, 1209), "4"), ((770, 1336), "5"), ((770, 1477), "6"), ((770, 1633), "B"),
   ((852, 1209), "7"), ((852, 1336), "8"), ((852, 1477), "9"), ((852, 1633), "C"),
   ((941, 1209), "*"), ((941, 1336), "0"), ((941, 1477), "#"), ((941, 1633), "D")]

/-- `KEYS.get((t1, t2), None)` from rtl_dtmf.py line 233. -/
def keysGet (p : ℕ × ℕ) : Option String := KEYS.lookup p

/-- The `Button` class of rtl_dtmf.py: `value` is the current key (or
empty), `status` is one of `""`, `"DOWN"`, `"HELD"`, `"UP"`. -/
structure Button where
  value : String
  status : String
deriving DecidableEq, Repr

/-- Python `np.amax` over a list (undefined on `[]` in numpy; the engine
only applies it to non-empty band slices, where this matches). -/
def amaxList : List ℕ → ℕ
  | [] => 0
  | x :: xs => xs.foldl max x

/-- Helper for `argmaxList`: scans `xs` keeping the best index `bi`, best
value `bv` and the index `i` of the head of `xs`; a strictly larger value
replaces the best, so ties keep the earliest index as `np.argmax` does. -/
def argmaxAux : List ℕ → ℕ → ℕ → ℕ → ℕ
  | [], bi, _, _ => bi
  | x :: xs, bi, bv, i => if bv < x then argmaxAux xs i x (i + 1) else argmaxAux xs bi bv (i + 1)

/-- Python `np.argmax` over a list: index of the first maximum. -/
def argmaxList : List ℕ → ℕ
  | [] => 0
  | x :: xs => argmaxAux xs 0 x 1

/-- `tone1_level = np.amax(tone_intensity[0:4])` (line 212). -/
def tone1_level (I : List ℕ) : ℕ := amaxList (I.take 4)

/-- `tone2_level = np.amax(tone_intensity[4:8])` (line 217). -/
def tone2_level (I : List ℕ) : ℕ := amaxList ((I.drop 4).take 4)

/-- `tone1 = DTMF_FREQ[np.argmax(tone_intensity[0:4])]` (lines 213-214). -/
def tone1 (I : List ℕ) : ℕ := DTMF_FREQ.getD (argmaxList (I.take 4)) 0

/-- `tone2 = DTMF_FREQ[np.argmax(tone_intensity[4:8]) + 4]` (lines 218-219). -/
def tone2 (I : List ℕ) : ℕ := DTMF_FREQ.getD (argmaxList ((I.drop 4).take 4) + 4) 0

/-- `signal = (tone1_level + tone2_level) / 2` (line 222). -/
def signalOf (I : List ℕ) : ℚ := ((tone1_level I : ℚ) + (tone2_level I : ℚ)) / 2

/-- `noise = (tone_intensity.sum() - (signal * 2)) / 6` (line 225). -/
def noiseOf (I : List ℕ) : ℚ := ((I.sum : ℚ) - signalOf I * 2) / 6

/-- `self.snr = signal // noise` (line 228): rational floor division.
When `noise = 0` the source performs a floating-point division by zero
(numpy emits a non-finite value); the rational embedding has no value
there, so the result is `none`. -/
def snrOf (I : List ℕ) : Option ℤ :=
  if noiseOf I = 0 then none else some ⌊signalOf I / noiseOf I⌋

/-- The key-found branch of the button machine (lines 235-242): a new key
goes to `DOWN`, the same key held goes to `HELD`. -/
def pressStep (b : Button) (key : String) : Button :=
  if b.value ≠ key then ⟨key, "DOWN"⟩ else ⟨key, "HELD"⟩

/-- The below-threshold branch of the button machine (lines 243-254):
`UP` decays to idle, any other non-idle status becomes `UP`, idle stays. -/
def releaseStep (b : Button) : Button :=
  if b.status = "UP" then ⟨"", ""⟩
  else if b.status ≠ "" then ⟨b.value, "UP"⟩
  else ⟨"", ""⟩

/-- One classification plus button-machine update (lines 228-254) from
the band intensities: the computed `snr` is stored, then compared against
the threshold; at or above it the dominant pair is looked up in `KEYS`
(a miss leaves the button unchanged), below it the button releases.
`none` marks the zero-noise case where the source divides by zero. -/
def decodeStep (threshold : ℤ) (I : List ℕ) (b : Button) : Option (ℤ × Button) :=
  match snrOf I with
  | none => none
  | some snr =>
      if threshold ≤ snr then
        match keysGet (tone1 I, tone2 I) with
        | some k => some (snr, pressStep b k)
        | none => some (snr, b)
      else some (snr, releaseStep b)

/-! ## FFT geometry (lines 137-138, 197-203) -/

/-- `np.frombuffer(data, dtype=np.int16)` on a buffer of `nbytes` bytes
yields `nbytes / 2` samples (line 197): the chunk size counts bytes, a
sample is two bytes. -/
def frombufferInt16Len (nbytes : ℕ) : ℕ := nbytes / 2

/-- `np.fft.rfft` on `n` real samples returns `n / 2 + 1` bins. -/
def rfftBins (n : ℕ) : ℕ := n / 2 + 1

/-- `np.fft.rfftfreq(n, d = 1 / rate)` (lines 137-138): the frequency of
bin `k` is `k * rate / n`, for `k = 0, ..., n / 2`. -/
def rfftfreq (n : ℕ) (rate : ℚ) : List ℚ :=
  (List.range (n / 2 + 1)).map (fun k : ℕ => (k : ℚ) * rate / n)

/-- The frequency grid the source precomputes at startup (line 137):
`np.fft.rfftfreq(self.chunk_size // 2, d = 1.0 / self.sample_rate)` with
the default chunk size 3600 and sample rate 24000. -/
def defaultFreqs : List ℚ := rfftfreq (3600 / 2) 24000

/-! ## Band-range startup loop (lines 156-175) -/

/-- Inner loop of the startup range scan for one band `[lo, hi]`:
`temp` collects the indices of bins inside the band; the first bin above
the band assigns `(temp[0], temp[len(temp) - 1])` and breaks.  Running off
the end without a break leaves the initial `(0, 0)`.  (On a break with
`temp` empty the Python would raise `IndexError`; the defaults `0` stand
in -- that point is never reached at the configuration evaluated here.) -/
def findRangeAux (lo hi : ℚ) : List ℚ → ℕ → List ℕ → ℕ × ℕ
  | [], _, _ => (0, 0)
  | f :: fs, i, temp =>
      if lo ≤ f ∧ f ≤ hi then findRangeAux lo hi fs (i + 1) (temp ++ [i])
      else if hi < f then (temp.headD 0, temp.getLastD 0)
      else findRangeAux lo hi fs (i + 1) temp

/-- Start/end bin indices for one band, as computed at startup. -/
def findRange (freqs : List ℚ) (lo hi : ℚ) : ℕ × ℕ := findRangeAux lo hi freqs 0 []

/-- The `start` / `end` lists for all 8 bands (lines 141-142, 156-175),
paired per band. -/
def bandRanges (freqs : List ℚ) : List (ℕ × ℕ) :=
  (List.range 8).map (fun i => findRange freqs (DTMF_START.getD i 0) (DTMF_END.getD i 0))

/-- `np.amax(fft[a:b])`: maximum over the half-open slice `[a, b)`
(line 209). -/
def sliceAmax (fft : List ℕ) (a b : ℕ) : ℕ := amaxList ((fft.drop a).take (b - a))

/-- `tone_intensity[i] = np.amax(fft[start[i]:end[i]])` for each band
(lines 207-209). -/
def toneIntensity (fft : List ℕ) (ranges : List (ℕ × ℕ)) : List ℕ :=
  ranges.map (fun r => sliceAmax fft r.1 r.2)

/-! ## Sequence buffer (`DTMF.update_buffer`, lines 89-121) -/

/-- The sequence-recognition state: `code_buffer`, `last_keypress` and the
transient `code` attributes of `DTMF`. -/
structure SeqState where
  code_buffer : String
  last_keypress : ℚ
  code : String
deriving DecidableEq, Repr

/-- Python `s[0 : len(s) - 1]`: the string without its last character. -/
def pyDropLast (s : String) : String := ⟨s.data.dropLast⟩

/-- `DTMF.update_buffer` (lines 89-121), reading the button produced by
this iteration and the current time `now`: clear `code`; inside the
timeout window an `UP` button appends its value to the buffer and a
terminator match publishes the buffer (without the terminator) as `code`;
past the window the buffer is dropped and the keypress clock reset. -/
def update_buffer (code_timeout : ℚ) (code_terminator : String)
    (b : Button) (now : ℚ) (s : SeqState) : SeqState :=
  let diff := now - s.last_keypress
  let s0 : SeqState := { s with code := "" }
  if diff ≤ code_timeout then
    if b.status = "UP" then
      let s1 : SeqState := { s0 with last_keypress := now,
                                     code_buffer := s0.code_buffer ++ b.value }
      if b.value = code_terminator then
        { s1 with code := pyDropLast s1.code_buffer, code_buffer := "" }
      else s1
    else s0
  else
    { s0 with code_buffer := "", last_keypress := now }

/-! ## Engine loop (`DTMF.start`, lines 180-270) -/

/-- The configuration attributes of `DTMF` fixed before `start`. -/
structure Config where
  chunk_size : ℕ
  sample_rate : ℚ
  snr_threshold : ℤ
  enable_sequence : Bool
  code_timeout : ℚ
  code_terminator : String
  kill_code : String
deriving Repr

/-- The mutable engine state: button, last SNR, sequence state, the
`kill` flag set by `DTMF.stop`, and `terminated` recording that the
audio-source subprocess was killed (`subprocess.Popen.kill`, line 131). -/
structure EngineState where
  button : Button
  snr : ℤ
  seq : SeqState
  kill : Bool
  terminated : Bool
deriving DecidableEq, Repr

/-- One loop iteration's environment: `read = none` models
`self.rtl_fm.stdout.read` raising (the `except` path, lines 185-190);
`read = some fft` models a full chunk whose transform has the given
magnitudes.  `now` is the wall clock seen by `update_buffer`. -/
structure IterInput where
  read : Option (List ℕ)
  now : ℚ

/-- The sequence phase of one iteration (lines 256-262): when enabled,
run `update_buffer` and then `DTMF.stop` if the non-empty kill code was
produced; otherwise do nothing. -/
def seqPhase (cfg : Config) (now : ℚ) (s : EngineState) : EngineState :=
  if cfg.enable_sequence then
    let s1 : EngineState :=
      { s with seq := update_buffer cfg.code_timeout cfg.code_terminator s.button now s.seq }
    if s1.seq.code = cfg.kill_code ∧ cfg.kill_code ≠ "" then
      { s1 with terminated := true, kill := true }
    else s1
  else s

/-- One full iteration of the `while True` loop (lines 180-265), given the
precomputed band ranges.  A failed read skips only the decode block; the
sequence phase (and the no-op callback `self.main()`) run regardless.
`none` marks the unmodelled zero-noise floating division (line 228). -/
def engineStep (cfg : Config) (ranges : List (ℕ × ℕ)) (s : EngineState)
    (inp : IterInput) : Option EngineState :=
  match inp.read with
  | none => some (seqPhase cfg inp.now s)
  | some fft =>
      match decodeStep cfg.snr_threshold (toneIntensity fft ranges) s.button with
      | none => none
      | some (snr, b) => some (seqPhase cfg inp.now { s with button := b, snr := snr })

/-- Run the loop over a list of iteration environments, collecting the
state after each iteration; the loop breaks right after an iteration that
set `kill` (lines 268-270), and the trace is cut short where the model is
undefined. -/
def runTrace (cfg : Config) (ranges : List (ℕ × ℕ)) :
    EngineState → List IterInput → List EngineState
  | _, [] => []
  | s, inp :: rest =>
      match engineStep cfg ranges s inp with
      | none => []
      | some s1 => if s1.kill then [s1] else s1 :: runTrace cfg ranges s1 rest

/-- The engine state as `DTMF.__init__` and the top of `start` leave it
(`last_keypress = datetime.now()` becomes the parameter `t0`). -/
def initState (t0 : ℚ) : EngineState :=
  { button := ⟨"", ""⟩, snr := 0,
    seq := { code_buffer := "", last_keypress := t0, code := "" },
    kill := false, terminated := false }

/-- The successive `update_buffer` calls of a run feed the button and
clock of each iteration into the evolving sequence state; one such call. -/
def sbStep (timeout : ℚ) (term : String) (s : SeqState) (e : Button × ℚ) : SeqState :=
  update_buffer timeout term e.1 e.2 s

/-- Sequence states after each of a run of `update_buffer` calls. -/
def sbTrace (timeout : ℚ) (term : String) : SeqState → List (Button × ℚ) → List SeqState
  | _, [] => []
  | s, e :: es => sbStep timeout term s e :: sbTrace timeout term (sbStep timeout term s e) es

/-- Sequence state after a whole run of `update_buffer` calls. -/
def sbFold (timeout : ℚ) (term : String) (s : SeqState) (es : List (Button × ℚ)) : SeqState :=
  es.foldl (sbStep timeout term) s

/-! ## Integer form of the startup scan

The startup scan compares grid frequencies `k * rate / n` with the band
edges; over the grid produced by `rfftfreq` those rational comparisons
are equivalent to cross-multiplied natural-number comparisons, which is
proved as `findRangeAux_toN` below and lets the scan be evaluated. -/

/-- `findRangeAux` with every comparison cross-multiplied by the grid
denominator `n`: bin `k` (frequency `k * rate / n`) is inside `[lo, hi]`
iff `lo * n ≤ k * rate ∧ k * rate ≤ hi * n`. -/
def findRangeAuxN (lo hi rate n : ℕ) : List ℕ → ℕ → List ℕ → ℕ × ℕ
  | [], _, _ => (0, 0)
  | k :: ks, i, temp =>
      if lo * n ≤ k * rate ∧ k * rate ≤ hi * n then findRangeAuxN lo hi rate n ks (i + 1) (temp ++ [i])
      else if hi * n < k * rate then (temp.headD 0, temp.getLastD 0)
      else findRangeAuxN lo hi rate n ks (i + 1) temp

/-! ## Concrete inputs used by witnesses and counterexamples -/

/-- The start/end bin pairs the startup scan yields at the default
configuration (chunk size 3600, sample rate 24000); proved equal to
`bandRanges defaultFreqs` in `bandRanges_default`. -/
def rangesD : List (ℕ × ℕ) :=
  [(51, 53), (57, 59), (63, 65), (66, 75), (89, 93), (98, 102), (108, 113), (120, 125)]

/-- A 901-bin magnitude vector with value `v` on the listed bins and
`fill` elsewhere. -/
def mkFft (bins : List ℕ) (v fill : ℕ) : List ℕ :=
  (List.range 901).map (fun k => if k ∈ bins then v else fill)

/-- Chunk sounding key `1`: energy in band 697 (bin 51) and 1209 (bin 89). -/
def fftKey1 : List ℕ := mkFft [51, 89] 60 1

/-- Chunk sounding key `2`: energy in band 697 (bin 51) and 1336 (bin 98). -/
def fftKey2 : List ℕ := mkFft [51, 98] 60 1

/-- Chunk sounding key `3`: energy in band 697 (bin 51) and 1477 (bin 108). -/
def fftKey3 : List ℕ := mkFft [51, 108] 60 1

/-- Chunk sounding key `9`: energy in band 852 (bin 63) and 1477 (bin 108). -/
def fftKey9 : List ℕ := mkFft [63, 108] 60 1

/-- Chunk sounding key `#`: energy in band 941 (bin 66) and 1477 (bin 108). -/
def fftKeyHash : List ℕ := mkFft [66, 108] 60 1

/-- A flat chunk: every band intensity 1, SNR 1 (below threshold). -/
def fftLow : List ℕ := List.replicate 901 1

/-- A chunk whose only energy is the two dominant bins (51 and 89): the
six non-dominant intensities are all zero, so the noise estimate is 0. -/
def fftZeroNoise : List ℕ := mkFft [51, 89] 5 0

/-- A chunk whose only energy sits at bin 53 -- the LAST bin of band 0's
scanned range `(51, 53)` -- which the slice `fft[51:53]` excludes. -/
def fftBin53 : List ℕ := mkFft [53] 10 0

/-- A sequence-enabled configuration: timeout 10 s, terminator `#`, no
kill code (`demo_code_sequence.py` settings). -/
def cfgSeq : Config :=
  { chunk_size := 3600, sample_rate := 24000, snr_threshold := 9,
    enable_sequence := true, code_timeout := 10, code_terminator := "#",
    kill_code := "" }

/-- As `cfgSeq` but with kill code `"9"`. -/
def cfgKill : Config :=
  { cfgSeq with kill_code := "9" }

/-! ## Supporting lemmas -/

/-- On the `rfftfreq`-shaped grid, the startup scan agrees with its
cross-multiplied natural-number form. -/
theorem findRangeAux_toN (lo hi rateN n : ℕ) (rate : ℚ) (hr : (rateN : ℚ) = rate)
    (hn : 0 < n) :
    ∀ (ks : List ℕ) (i : ℕ) (temp : List ℕ),
      findRangeAux (lo : ℚ) (hi : ℚ) (ks.map (fun k : ℕ => (k : ℚ) * rate / (n : ℚ))) i temp
        = findRangeAuxN lo hi rateN n ks i temp
  | [], _, _ => rfl
  | k :: ks, i, temp => by
      have hnq : (0 : ℚ) < (n : ℚ) := by exact_mod_cast hn
      subst hr
      have h1 : ((lo : ℚ) ≤ (k : ℚ) * (rateN : ℚ) / (n : ℚ)) ↔ lo * n ≤ k * rateN := by
        rw [le_div_iff₀ hnq]
        norm_cast
      have h2 : ((k : ℚ) * (rateN : ℚ) / (n : ℚ) ≤ (hi : ℚ)) ↔ k * rateN ≤ hi * n := by
        rw [div_le_iff₀ hnq]
        norm_cast
      have h3 : ((hi : ℚ) < (k : ℚ) * (rateN : ℚ) / (n : ℚ)) ↔ hi * n < k * rateN := by
        rw [lt_div_iff₀ hnq]
        norm_cast
      simp only [List.map_cons, findRangeAux, findRangeAuxN]
      by_cases hc : lo * n ≤ k * rateN ∧ k * rateN ≤ hi * n
      · rw [if_pos ((h1.and h2).mpr hc), if_pos hc,
          findRangeAux_toN lo hi rateN n (rateN : ℚ) rfl hn ks]
      · rw [if_neg (fun h => hc ((h1.and h2).mp h)), if_neg hc]
        by_cases hd : hi * n < k * rateN
        · rw [if_pos (h3.mpr hd), if_pos hd]
        · rw [if_neg (fun h => hd (h3.mp h)), if_neg hd,
            findRangeAux_toN lo hi rateN n (rateN : ℚ) rfl hn ks]

/-- The previous bridge at the default rate 24000 and grid size 1800,
hypothesis-free so it can rewrite. -/
theorem findRangeAux_default (lo hi : ℕ) (ks : List ℕ) (i : ℕ) (temp : List ℕ) :
    findRangeAux (lo : ℚ) (hi : ℚ)
        (ks.map (fun k : ℕ => (k : ℚ) * 24000 / ((3600 / 2 : ℕ) : ℚ))) i temp
      = findRangeAuxN lo hi 24000 (3600 / 2) ks i temp :=
  findRangeAux_toN lo hi 24000 (3600 / 2) 24000 (by norm_num) (by norm_num) ks i temp

set_option maxRecDepth 40000 in
/-- The startup scan at the default configuration yields `rangesD`. -/
theorem bandRanges_default : bandRanges defaultFreqs = rangesD := by
  unfold bandRanges findRange defaultFreqs rfftfreq
  simp only [findRangeAux_default]
  decide

theorem foldl_max_le_add_sum (xs : List ℕ) : ∀ acc : ℕ, xs.foldl max acc ≤ acc + xs.sum := by
  induction xs with
  | nil => intro acc; simp
  | cons y ys ih =>
      intro acc
      calc (y :: ys).foldl max acc = ys.foldl max (max acc y) := rfl
        _ ≤ max acc y + ys.sum := ih _
        _ ≤ (acc + y) + ys.sum := by
              have : max acc y ≤ acc + y := max_le (Nat.le_add_right _ _) (Nat.le_add_left _ _)
              omega
        _ = acc + (y :: ys).sum := by simp [List.sum_cons]; omega

theorem amaxList_le_sum (l : List ℕ) : amaxList l ≤ l.sum := by
  cases l with
  | nil => simp [amaxList]
  | cons x xs =>
      calc amaxList (x :: xs) = xs.foldl max x := rfl
        _ ≤ x + xs.sum := foldl_max_le_add_sum xs x
        _ = (x :: xs).sum := by simp

/-- The two dominant levels never exceed the total intensity. -/
theorem tone_levels_le_sum (I : List ℕ) : tone1_level I + tone2_level I ≤ I.sum := by
  have h1 : tone1_level I ≤ (I.take 4).sum := amaxList_le_sum _
  have h2 : tone2_level I ≤ ((I.drop 4).take 4).sum := amaxList_le_sum _
  have h3 : ((I.drop 4).take 4).sum ≤ (I.drop 4).sum := by
    conv_rhs => rw [← List.sum_take_add_sum_drop (I.drop 4) 4]
    omega
  have h4 : (I.take 4).sum + (I.drop 4).sum = I.sum := List.sum_take_add_sum_drop I 4
  omega

/-- Evaluable form of `snrOf`: with `t = tone1_level + tone2_level` and
`S` the total intensity, the noise is zero iff `S - t = 0`, and otherwise
`snr = (3 * t) / (S - t)` in natural-number division. -/
theorem snrOf_eval (I : List ℕ) :
    snrOf I =
      if I.sum - (tone1_level I + tone2_level I) = 0 then none
      else some (((3 * (tone1_level I + tone2_level I))
                   / (I.sum - (tone1_level I + tone2_level I)) : ℕ) : ℤ) := by
  have hle := tone_levels_le_sum I
  have hnoise : noiseOf I = ((I.sum : ℚ) - ((tone1_level I : ℚ) + (tone2_level I : ℚ))) / 6 := by
    unfold noiseOf signalOf
    ring
  have hcond : (noiseOf I = 0) ↔ (I.sum - (tone1_level I + tone2_level I) = 0) := by
    rw [hnoise, div_eq_zero_iff]
    constructor
    · intro h
      have h0 : (I.sum : ℚ) = (tone1_level I : ℚ) + (tone2_level I : ℚ) := by
        rcases h with h | h
        · linarith
        · norm_num at h
      have : I.sum = tone1_level I + tone2_level I := by exact_mod_cast h0
      omega
    · intro h
      left
      have : I.sum = tone1_level I + tone2_level I := by omega
      rw [this]
      push_cast
      ring
  unfold snrOf
  by_cases hz : I.sum - (tone1_level I + tone2_level I) = 0
  · rw [if_pos (hcond.mpr hz), if_pos hz]
  · rw [if_neg (fun h => hz (hcond.mp h)), if_neg hz]
    have hcast : ((I.sum - (tone1_level I + tone2_level I) : ℕ) : ℚ)
        = (I.sum : ℚ) - ((tone1_level I : ℚ) + (tone2_level I : ℚ)) := by
      push_cast [Nat.cast_sub hle]
      ring
    have hne : (I.sum : ℚ) - ((tone1_level I : ℚ) + (tone2_level I : ℚ)) ≠ 0 := by
      rw [← hcast]
      have : 0 < I.sum - (tone1_level I + tone2_level I) := Nat.pos_of_ne_zero hz
      have h0 : (0 : ℚ) < ((I.sum - (tone1_level I + tone2_level I) : ℕ) : ℚ) := by
        exact_mod_cast this
      exact ne_of_gt h0
    have hkey : ∀ a b : ℚ, b ≠ 0 → (a / 2) / (b / 6) = 3 * a / b := by
      intro a b hb
      field_simp
      ring
    have hratio : signalOf I / noiseOf I
        = (((3 * (tone1_level I + tone2_level I) : ℕ) : ℤ) : ℚ)
          / ((I.sum - (tone1_level I + tone2_level I) : ℕ) : ℚ) := by
      rw [hnoise]
      unfold signalOf
      rw [hkey _ _ hne, hcast]
      congr 1
      push_cast
      ring
    congr 1
    rw [hratio, Rat.floor_intCast_div_natCast]
    exact_mod_cast rfl

theorem argmaxAux_lt (xs : List ℕ) :
    ∀ bi bv i : ℕ, argmaxAux xs bi bv i < max (i + xs.length) (bi + 1) := by
  induction xs with
  | nil =>
      intro bi bv i
      simp [argmaxAux]
  | cons x xs ih =>
      intro bi bv i
      simp only [argmaxAux, List.length_cons]
      by_cases h : bv < x
      · rw [if_pos h]
        have h2 := ih i x (i + 1)
        rw [lt_max_iff] at h2 ⊢
        left
        rcases h2 with h2 | h2 <;> omega
      · rw [if_neg h]
        have h2 := ih bi bv (i + 1)
        rw [lt_max_iff] at h2 ⊢
        rcases h2 with h2 | h2
        · left; omega
        · right; omega

/-- `np.argmax` over a list of at most `m` entries is below `m`. -/
theorem argmaxList_lt (l : List ℕ) (m : ℕ) (h0 : 0 < m) (hl : l.length ≤ m) :
    argmaxList l < m := by
  cases l with
  | nil => simpa [argmaxList] using h0
  | cons x xs =>
      have h2 := argmaxAux_lt xs 0 x 1
      rw [lt_max_iff] at h2
      simp only [List.length_cons] at hl
      simp only [argmaxList]
      rcases h2 with h2 | h2 <;> omega

/-- The dominant low tone is always one of the four low DTMF tones. -/
theorem tone1_mem (I : List ℕ) : tone1 I ∈ ([697, 770, 852, 941] : List ℕ) := by
  have hlt : argmaxList (I.take 4) < 4 :=
    argmaxList_lt _ 4 (by norm_num) (by simp)
  have h4 : argmaxList (I.take 4) = 0 ∨ argmaxList (I.take 4) = 1 ∨
      argmaxList (I.take 4) = 2 ∨ argmaxList (I.take 4) = 3 := by omega
  unfold tone1
  rcases h4 with h | h | h | h <;> rw [h] <;> decide

/-- The dominant high tone is always one of the four high DTMF tones. -/
theorem tone2_mem (I : List ℕ) : tone2 I ∈ ([1209, 1336, 1477, 1633] : List ℕ) := by
  have hlt : argmaxList ((I.drop 4).take 4) < 4 :=
    argmaxList_lt _ 4 (by norm_num) (by simp)
  have h4 : argmaxList ((I.drop 4).take 4) = 0 ∨ argmaxList ((I.drop 4).take 4) = 1 ∨
      argmaxList ((I.drop 4).take 4) = 2 ∨ argmaxList ((I.drop 4).take 4) = 3 := by omega
  unfold tone2
  rcases h4 with h | h | h | h <;> rw [h] <;> decide

/-- `KEYS` is total on the dominant-tone pairs: the lookup never misses. -/
theorem keysGet_tone_isSome (I : List ℕ) : (keysGet (tone1 I, tone2 I)).isSome = true := by
  have h1 := tone1_mem I
  have h2 := tone2_mem I
  simp only [List.mem_cons, List.mem_singleton, List.not_mem_nil, or_false] at h1 h2
  rcases h1 with h1 | h1 | h1 | h1 <;> rcases h2 with h2 | h2 | h2 | h2 <;>
    rw [h1, h2] <;> decide

/-! ### Evaluation of the concrete chunks -/

set_option maxRecDepth 100000 in
set_option maxHeartbeats 1000000 in
theorem toneIntensity_fftKey1 : toneIntensity fftKey1 rangesD = [60, 1, 1, 1, 60, 1, 1, 1] := by
  decide

set_option maxRecDepth 100000 in
set_option maxHeartbeats 1000000 in
theorem toneIntensity_fftKey2 : toneIntensity fftKey2 rangesD = [60, 1, 1, 1, 1, 60, 1, 1] := by
  decide

set_option maxRecDepth 100000 in
set_option maxHeartbeats 1000000 in
theorem toneIntensity_fftKey3 : toneIntensity fftKey3 rangesD = [60, 1, 1, 1, 1, 1, 60, 1] := by
  decide

set_option maxRecDepth 100000 in
set_option maxHeartbeats 1000000 in
theorem toneIntensity_fftKey9 : toneIntensity fftKey9 rangesD = [1, 1, 60, 1, 1, 1, 60, 1] := by
  decide

set_option maxRecDepth 100000 in
set_option maxHeartbeats 1000000 in
theorem toneIntensity_fftKeyHash : toneIntensity fftKeyHash rangesD = [1, 1, 1, 60, 1, 1, 60, 1] := by
  decide

set_option maxRecDepth 100000 in
set_option maxHeartbeats 1000000 in
theorem toneIntensity_fftLow : toneIntensity fftLow rangesD = [1, 1, 1, 1, 1, 1, 1, 1] := by
  decide

set_option maxRecDepth 100000 in
set_option maxHeartbeats 1000000 in
theorem toneIntensity_fftZeroNoise : toneIntensity fftZeroNoise rangesD = [5, 0, 0, 0, 5, 0, 0, 0] := by
  decide

set_option maxRecDepth 100000 in
set_option maxHeartbeats 1000000 in
theorem toneIntensity_fftBin53 : toneIntensity fftBin53 rangesD = [0, 0, 0, 0, 0, 0, 0, 0] := by
  decide

theorem snrOf_one60 (I : List ℕ) (h1 : tone1_level I = 60) (h2 : tone2_level I = 60)
    (hs : I.sum = 126) : snrOf I = some 60 := by
  rw [snrOf_eval, h1, h2, hs]
  decide

theorem snrOf_flat : snrOf [1, 1, 1, 1, 1, 1, 1, 1] = some 1 := by
  rw [snrOf_eval]
  decide

theorem snrOf_zeroNoise : snrOf [5, 0, 0, 0, 5, 0, 0, 0] = none := by
  rw [snrOf_eval]
  decide

theorem decodeStep_fftKey1 (b : Button) :
    decodeStep 9 (toneIntensity fftKey1 rangesD) b = some (60, pressStep b "1") := by
  have h1 : snrOf (toneIntensity fftKey1 rangesD) = some 60 := by
    rw [toneIntensity_fftKey1]
    exact snrOf_one60 _ (by decide) (by decide) (by decide)
  have h2 : keysGet (tone1 (toneIntensity fftKey1 rangesD), tone2 (toneIntensity fftKey1 rangesD))
      = some "1" := by
    rw [toneIntensity_fftKey1]
    decide
  unfold decodeStep
  rw [h1, h2]
  norm_num

theorem decodeStep_fftKey2 (b : Button) :
    decodeStep 9 (toneIntensity fftKey2 rangesD) b = some (60, pressStep b "2") := by
  have h1 : snrOf (toneIntensity fftKey2 rangesD) = some 60 := by
    rw [toneIntensity_fftKey2]
    exact snrOf_one60 _ (by decide) (by decide) (by decide)
  have h2 : keysGet (tone1 (toneIntensity fftKey2 rangesD), tone2 (toneIntensity fftKey2 rangesD))
      = some "2" := by
    rw [toneIntensity_fftKey2]
    decide
  unfold decodeStep
  rw [h1, h2]
  norm_num

theorem decodeStep_fftKey3 (b : Button) :
    decodeStep 9 (toneIntensity fftKey3 rangesD) b = some (60, pressStep b "3") := by
  have h1 : snrOf (toneIntensity fftKey3 rangesD) = some 60 := by
    rw [toneIntensity_fftKey3]
    exact snrOf_one60 _ (by decide) (by decide) (by decide)
  have h2 : keysGet (tone1 (toneIntensity fftKey3 rangesD), tone2 (toneIntensity fftKey3 rangesD))
      = some "3" := by
    rw [toneIntensity_fftKey3]
    decide
  unfold decodeStep
  rw [h1, h2]
  norm_num

theorem decodeStep_fftKey9 (b : Button) :
    decodeStep 9 (toneIntensity fftKey9 rangesD) b = some (60, pressStep b "9") := by
  have h1 : snrOf (toneIntensity fftKey9 rangesD) = some 60 := by
    rw [toneIntensity_fftKey9]
    exact snrOf_one60 _ (by decide) (by decide) (by decide)
  have h2 : keysGet (tone1 (toneIntensity fftKey9 rangesD), tone2 (toneIntensity fftKey9 rangesD))
      = some "9" := by
    rw [toneIntensity_fftKey9]
    decide
  unfold decodeStep
  rw [h1, h2]
  norm_num

theorem decodeStep_fftKeyHash (b : Button) :
    decodeStep 9 (toneIntensity fftKeyHash rangesD) b = some (60, pressStep b "#") := by
  have h1 : snrOf (toneIntensity fftKeyHash rangesD) = some 60 := by
    rw [toneIntensity_fftKeyHash]
    exact snrOf_one60 _ (by decide) (by decide) (by decide)
  have h2 : keysGet (tone1 (toneIntensity fftKeyHash rangesD), tone2 (toneIntensity fftKeyHash rangesD))
      = some "#" := by
    rw [toneIntensity_fftKeyHash]
    decide
  unfold decodeStep
  rw [h1, h2]
  norm_num

theorem decodeStep_fftLow (b : Button) :
    decodeStep 9 (toneIntensity fftLow rangesD) b = some (1, releaseStep b) := by
  have h1 : snrOf (toneIntensity fftLow rangesD) = some 1 := by
    rw [toneIntensity_fftLow]
    exact snrOf_flat
  unfold decodeStep
  rw [h1]
  norm_num

/-! ### Conditional evaluation of `update_buffer` -/

theorem update_buffer_quiet (timeout : ℚ) (term : String) (b : Button) (now : ℚ) (s : SeqState)
    (ht : now - s.last_keypress ≤ timeout) (hb : b.status ≠ "UP") :
    update_buffer timeout term b now s = { s with code := "" } := by
  unfold update_buffer
  rw [if_pos ht, if_neg hb]

theorem update_buffer_rel (timeout : ℚ) (term : String) (b : Button) (now : ℚ) (s : SeqState)
    (ht : now - s.last_keypress ≤ timeout) (hb : b.status = "UP") (hv : b.value ≠ term) :
    update_buffer timeout term b now s
      = { code_buffer := s.code_buffer ++ b.value, last_keypress := now, code := "" } := by
  unfold update_buffer
  rw [if_pos ht, if_pos hb, if_neg hv]

theorem update_buffer_term (timeout : ℚ) (term : String) (b : Button) (now : ℚ) (s : SeqState)
    (ht : now - s.last_keypress ≤ timeout) (hb : b.status = "UP") (hv : b.value = term) :
    update_buffer timeout term b now s
      = { code_buffer := "", last_keypress := now,
          code := pyDropLast (s.code_buffer ++ b.value) } := by
  unfold update_buffer
  rw [if_pos ht, if_pos hb, if_pos hv]

theorem update_buffer_expired (timeout : ℚ) (term : String) (b : Button) (now : ℚ) (s : SeqState)
    (ht : ¬(now - s.last_keypress ≤ timeout)) :
    update_buffer timeout term b now s
      = { code_buffer := "", last_keypress := now, code := "" } := by
  unfold update_buffer
  rw [if_neg ht]

/-! ### Conditional evaluation of the button machine and engine step -/

theorem pressStep_ne (b : Button) (k : String) (h : b.value ≠ k) :
    pressStep b k = ⟨k, "DOWN"⟩ := by
  unfold pressStep
  rw [if_pos h]

theorem pressStep_eq (b : Button) (k : String) (h : b.value = k) :
    pressStep b k = ⟨k, "HELD"⟩ := by
  unfold pressStep
  rw [if_neg (fun hne => hne h)]

theorem releaseStep_up (b : Button) (h : b.status = "UP") :
    releaseStep b = ⟨"", ""⟩ := by
  unfold releaseStep
  rw [if_pos h]

theorem releaseStep_active (b : Button) (h1 : b.status ≠ "UP") (h2 : b.status ≠ "") :
    releaseStep b = ⟨b.value, "UP"⟩ := by
  unfold releaseStep
  rw [if_neg h1, if_pos h2]

theorem releaseStep_idle (b : Button) (h : b.status = "") :
    releaseStep b = ⟨"", ""⟩ := by
  unfold releaseStep
  rw [if_neg (by rw [h]; decide), if_neg (fun hne => hne h)]

theorem engineStep_fail (cfg : Config) (ranges : List (ℕ × ℕ)) (s : EngineState) (t : ℚ) :
    engineStep cfg ranges s ⟨none, t⟩ = some (seqPhase cfg t s) := rfl

theorem engineStep_read (cfg : Config) (ranges : List (ℕ × ℕ)) (s : EngineState)
    (fft : List ℕ) (t : ℚ) (snr : ℤ) (b : Button)
    (h : decodeStep cfg.snr_threshold (toneIntensity fft ranges) s.button = some (snr, b)) :
    engineStep cfg ranges s ⟨some fft, t⟩
      = some (seqPhase cfg t { s with button := b, snr := snr }) := by
  have hstep : engineStep cfg ranges s ⟨some fft, t⟩
      = match decodeStep cfg.snr_threshold (toneIntensity fft ranges) s.button with
        | none => none
        | some (snr, b) => some (seqPhase cfg t { s with button := b, snr := snr }) := rfl
  rw [hstep, h]

theorem engineStep_undef (cfg : Config) (ranges : List (ℕ × ℕ)) (s : EngineState)
    (fft : List ℕ) (t : ℚ)
    (h : decodeStep cfg.snr_threshold (toneIntensity fft ranges) s.button = none) :
    engineStep cfg ranges s ⟨some fft, t⟩ = none := by
  have hstep : engineStep cfg ranges s ⟨some fft, t⟩
      = match decodeStep cfg.snr_threshold (toneIntensity fft ranges) s.button with
        | none => none
        | some (snr, b) => some (seqPhase cfg t { s with button := b, snr := snr }) := rfl
  rw [hstep, h]

theorem seqPhase_off (cfg : Config) (now : ℚ) (s : EngineState)
    (he : cfg.enable_sequence = false) : seqPhase cfg now s = s := by
  unfold seqPhase
  rw [he]
  rfl

theorem seqPhase_on_go (cfg : Config) (now : ℚ) (s : EngineState)
    (he : cfg.enable_sequence = true) (u : SeqState)
    (hu : update_buffer cfg.code_timeout cfg.code_terminator s.button now s.seq = u)
    (hk : ¬(u.code = cfg.kill_code ∧ cfg.kill_code ≠ "")) :
    seqPhase cfg now s = { s with seq := u } := by
  unfold seqPhase
  rw [he, if_pos rfl]
  simp only [hu]
  rw [if_neg hk]

theorem seqPhase_on_kill (cfg : Config) (now : ℚ) (s : EngineState)
    (he : cfg.enable_sequence = true) (u : SeqState)
    (hu : update_buffer cfg.code_timeout cfg.code_terminator s.button now s.seq = u)
    (hk : u.code = cfg.kill_code ∧ cfg.kill_code ≠ "") :
    seqPhase cfg now s = { s with seq := u, terminated := true, kill := true } := by
  unfold seqPhase
  rw [he, if_pos rfl]
  simp only [hu]
  rw [if_pos hk]

/-- If the sequence phase leaves the kill code (non-empty) in `code`,
it has set both the kill flag and terminated the audio source. -/
theorem seqPhase_kill_flag (cfg : Config) (now : ℚ) (s : EngineState)
    (he : cfg.enable_sequence = true) (hk : cfg.kill_code ≠ "")
    (hc : (seqPhase cfg now s).seq.code = cfg.kill_code) :
    (seqPhase cfg now s).kill = true ∧ (seqPhase cfg now s).terminated = true := by
  by_cases hcond : (update_buffer cfg.code_timeout cfg.code_terminator s.button now s.seq).code
      = cfg.kill_code ∧ cfg.kill_code ≠ ""
  · rw [seqPhase_on_kill cfg now s he _ rfl hcond]
    exact ⟨rfl, rfl⟩
  · rw [seqPhase_on_go cfg now s he _ rfl hcond] at hc
    exact absurd ⟨hc, hk⟩ hcond

/-- With an empty kill code the sequence phase never touches the kill or
terminated flags. -/
theorem seqPhase_preserves_flags (cfg : Config) (now : ℚ) (s : EngineState)
    (hk : cfg.kill_code = "") :
    (seqPhase cfg now s).kill = s.kill ∧ (seqPhase cfg now s).terminated = s.terminated := by
  by_cases he : cfg.enable_sequence = true
  · rw [seqPhase_on_go cfg now s he _ rfl (fun h => h.2 hk)]
    exact ⟨rfl, rfl⟩
  · rw [seqPhase_off cfg now s (Bool.not_eq_true _ ▸ Bool.of_not_eq_true he)]
    exact ⟨rfl, rfl⟩

theorem engineStep_kill_flag (cfg : Config) (ranges : List (ℕ × ℕ)) (s : EngineState)
    (inp : IterInput) (s2 : EngineState)
    (he : cfg.enable_sequence = true) (hk : cfg.kill_code ≠ "")
    (h : engineStep cfg ranges s inp = some s2)
    (hc : s2.seq.code = cfg.kill_code) :
    s2.kill = true ∧ s2.terminated = true := by
  obtain ⟨read, now⟩ := inp
  cases read with
  | none =>
      rw [engineStep_fail] at h
      injection h with h
      subst h
      exact seqPhase_kill_flag cfg now s he hk hc
  | some fft =>
      cases hd : decodeStep cfg.snr_threshold (toneIntensity fft ranges) s.button with
      | none =>
          rw [engineStep_undef cfg ranges s fft now hd] at h
          cases h
      | some p =>
          obtain ⟨snr, b⟩ := p
          rw [engineStep_read cfg ranges s fft now snr b hd] at h
          injection h with h
          subst h
          exact seqPhase_kill_flag cfg now _ he hk hc

theorem engineStep_preserves_flags (cfg : Config) (ranges : List (ℕ × ℕ)) (s : EngineState)
    (inp : IterInput) (s2 : EngineState)
    (hk : cfg.kill_code = "") (h : engineStep cfg ranges s inp = some s2) :
    s2.kill = s.kill ∧ s2.terminated = s.terminated := by
  obtain ⟨read, now⟩ := inp
  cases read with
  | none =>
      rw [engineStep_fail] at h
      injection h with h
      subst h
      exact seqPhase_preserves_flags cfg now s hk
  | some fft =>
      cases hd : decodeStep cfg.snr_threshold (toneIntensity fft ranges) s.button with
      | none =>
          rw [engineStep_undef cfg ranges s fft now hd] at h
          cases h
      | some p =>
          obtain ⟨snr, b⟩ := p
          rw [engineStep_read cfg ranges s fft now snr b hd] at h
          injection h with h
          subst h
          exact seqPhase_preserves_flags cfg now _ hk

/-! ### Equations for `runTrace` -/

theorem runTrace_nil (cfg : Config) (ranges : List (ℕ × ℕ)) (s : EngineState) :
    runTrace cfg ranges s [] = [] := rfl

theorem runTrace_cons_eq (cfg : Config) (ranges : List (ℕ × ℕ)) (s : EngineState)
    (inp : IterInput) (rest : List IterInput) :
    runTrace cfg ranges s (inp :: rest)
      = match engineStep cfg ranges s inp with
        | none => []
        | some s1 => if s1.kill then [s1] else s1 :: runTrace cfg ranges s1 rest := rfl

theorem runTrace_cons_none (cfg : Config) (ranges : List (ℕ × ℕ)) (s : EngineState)
    (inp : IterInput) (rest : List IterInput)
    (h : engineStep cfg ranges s inp = none) :
    runTrace cfg ranges s (inp :: rest) = [] := by
  rw [runTrace_cons_eq, h]

theorem runTrace_cons_some (cfg : Config) (ranges : List (ℕ × ℕ)) (s : EngineState)
    (inp : IterInput) (rest : List IterInput) (s1 : EngineState)
    (h : engineStep cfg ranges s inp = some s1) :
    runTrace cfg ranges s (inp :: rest)
      = if s1.kill then [s1] else s1 :: runTrace cfg ranges s1 rest := by
  rw [runTrace_cons_eq, h]

theorem runTrace_cons_kill (cfg : Config) (ranges : List (ℕ × ℕ)) (s : EngineState)
    (inp : IterInput) (rest : List IterInput) (s1 : EngineState)
    (h : engineStep cfg ranges s inp = some s1) (hk : s1.kill = true) :
    runTrace cfg ranges s (inp :: rest) = [s1] := by
  rw [runTrace_cons_some cfg ranges s inp rest s1 h, if_pos hk]

theorem runTrace_cons_go (cfg : Config) (ranges : List (ℕ × ℕ)) (s : EngineState)
    (inp : IterInput) (rest : List IterInput) (s1 : EngineState)
    (h : engineStep cfg ranges s inp = some s1) (hk : s1.kill = false) :
    runTrace cfg ranges s (inp :: rest) = s1 :: runTrace cfg ranges s1 rest := by
  rw [runTrace_cons_some cfg ranges s inp rest s1 h, if_neg (by simp [hk])]

/-- Any trace element whose `code` equals the non-empty kill code has the
kill and terminated flags set and is the last element of the trace. -/
theorem runTrace_kill_code (cfg : Config) (ranges : List (ℕ × ℕ))
    (he : cfg.enable_sequence = true) (hk : cfg.kill_code ≠ "") :
    ∀ (inputs : List IterInput) (s d : EngineState) (i : ℕ),
      i < (runTrace cfg ranges s inputs).length →
      ((runTrace cfg ranges s inputs).getD i d).seq.code = cfg.kill_code →
      ((runTrace cfg ranges s inputs).getD i d).kill = true
        ∧ ((runTrace cfg ranges s inputs).getD i d).terminated = true
        ∧ i + 1 = (runTrace cfg ranges s inputs).length := by
  intro inputs
  induction inputs with
  | nil =>
      intro s d i hlen
      rw [runTrace_nil] at hlen
      cases hlen
  | cons inp rest ih =>
      intro s d i hlen hcode
      cases hstep : engineStep cfg ranges s inp with
      | none =>
          rw [runTrace_cons_none cfg ranges s inp rest hstep] at hlen
          cases hlen
      | some s1 =>
          cases hs1 : s1.kill with
          | true =>
              rw [runTrace_cons_kill cfg ranges s inp rest s1 hstep hs1] at hlen hcode ⊢
              have hi : i = 0 := by
                simp only [List.length_singleton] at hlen
                omega
              subst hi
              refine ⟨hs1, ?_, rfl⟩
              exact (engineStep_kill_flag cfg ranges s inp s1 he hk hstep hcode).2
          | false =>
              rw [runTrace_cons_go cfg ranges s inp rest s1 hstep hs1] at hlen hcode ⊢
              cases i with
              | zero =>
                  have := (engineStep_kill_flag cfg ranges s inp s1 he hk hstep hcode).1
                  rw [hs1] at this
                  cases this
              | succ j =>
                  simp only [List.getD_cons_succ] at hcode ⊢
                  simp only [List.length_cons, Nat.succ_lt_succ_iff] at hlen
                  obtain ⟨ha, hb, hc⟩ := ih s1 d j hlen hcode
                  refine ⟨ha, hb, ?_⟩
                  simp only [List.length_cons]
                  omega

/-- With an empty kill code no trace element ever has the kill or
terminated flag set. -/
theorem runTrace_no_kill (cfg : Config) (ranges : List (ℕ × ℕ))
    (hk : cfg.kill_code = "") :
    ∀ (inputs : List IterInput) (s : EngineState),
      s.kill = false → s.terminated = false →
      ∀ x ∈ runTrace cfg ranges s inputs, x.kill = false ∧ x.terminated = false := by
  intro inputs
  induction inputs with
  | nil =>
      intro s _ _ x hx
      rw [runTrace_nil] at hx
      cases hx
  | cons inp rest ih =>
      intro s hsk hst x hx
      cases hstep : engineStep cfg ranges s inp with
      | none =>
          rw [runTrace_cons_none cfg ranges s inp rest hstep] at hx
          cases hx
      | some s1 =>
          obtain ⟨h1, h2⟩ := engineStep_preserves_flags cfg ranges s inp s1 hk hstep
          have hs1k : s1.kill = false := by rw [h1, hsk]
          have hs1t : s1.terminated = false := by rw [h2, hst]
          rw [runTrace_cons_go cfg ranges s inp rest s1 hstep hs1k] at hx
          rcases List.mem_cons.mp hx with hx | hx
          · subst hx
            exact ⟨hs1k, hs1t⟩
          · exact ih s1 hs1k hs1t x hx

/-! ### Runs of `update_buffer` calls -/

theorem sbFold_nil (timeout : ℚ) (term : String) (s : SeqState) :
    sbFold timeout term s [] = s := rfl

theorem sbFold_cons (timeout : ℚ) (term : String) (s : SeqState) (e : Button × ℚ)
    (es : List (Button × ℚ)) :
    sbFold timeout term s (e :: es) = sbFold timeout term (sbStep timeout term s e) es := rfl

theorem sbTrace_nil (timeout : ℚ) (term : String) (s : SeqState) :
    sbTrace timeout term s [] = [] := rfl

theorem sbTrace_cons (timeout : ℚ) (term : String) (s : SeqState) (e : Button × ℚ)
    (es : List (Button × ℚ)) :
    sbTrace timeout term s (e :: es)
      = sbStep timeout term s e :: sbTrace timeout term (sbStep timeout term s e) es := rfl

theorem sbTrace_append (timeout : ℚ) (term : String) :
    ∀ (es1 es2 : List (Button × ℚ)) (s : SeqState),
      sbTrace timeout term s (es1 ++ es2)
        = sbTrace timeout term s es1
          ++ sbTrace timeout term (sbFold timeout term s es1) es2 := by
  intro es1
  induction es1 with
  | nil => intro es2 s; rfl
  | cons e es ih =>
      intro es2 s
      rw [List.cons_append, sbTrace_cons, ih es2 (sbStep timeout term s e)]
      rfl

/-- A non-`UP` iteration inside the timeout window with `code` already
clear leaves the sequence state entirely unchanged. -/
theorem sbStep_fix (timeout : ℚ) (term : String) (s : SeqState) (e : Button × ℚ)
    (hc : s.code = "") (hb : e.1.status ≠ "UP") (ht : e.2 - s.last_keypress ≤ timeout) :
    sbStep timeout term s e = s := by
  unfold sbStep
  rw [update_buffer_quiet _ _ _ _ _ ht hb]
  obtain ⟨buf, lk, code⟩ := s
  simp only at hc
  rw [hc]

/-- A whole quiet stretch (no `UP`, all inside the window) fixes the
sequence state. -/
theorem sbFold_quiet (timeout : ℚ) (term : String) :
    ∀ (es : List (Button × ℚ)) (s : SeqState), s.code = "" →
      (∀ e ∈ es, e.1.status ≠ "UP" ∧ e.2 - s.last_keypress ≤ timeout) →
      sbFold timeout term s es = s := by
  intro es
  induction es with
  | nil => intro s _ _; rfl
  | cons e es ih =>
      intro s hc h
      obtain ⟨hb, ht⟩ := h e (List.mem_cons_self e es)
      rw [sbFold_cons, sbStep_fix timeout term s e hc hb ht]
      exact ih s hc (fun x hx => h x (List.mem_cons_of_mem e hx))

/-- The trace of a quiet stretch repeats the (already clear) state. -/
theorem sbTrace_quiet (timeout : ℚ) (term : String) :
    ∀ (es : List (Button × ℚ)) (s : SeqState), s.code = "" →
      (∀ e ∈ es, e.1.status ≠ "UP" ∧ e.2 - s.last_keypress ≤ timeout) →
      sbTrace timeout term s es = List.replicate es.length s := by
  intro es
  induction es with
  | nil => intro s _ _; rfl
  | cons e es ih =>
      intro s hc h
      obtain ⟨hb, ht⟩ := h e (List.mem_cons_self e es)
      rw [sbTrace_cons, sbStep_fix timeout term s e hc hb ht, List.length_cons,
        List.replicate_succ, ih s hc (fun x hx => h x (List.mem_cons_of_mem e hx))]

theorem sbStep_rel (timeout : ℚ) (term : String) (s : SeqState) (v : String) (t : ℚ)
    (ht : t - s.last_keypress ≤ timeout) (hv : v ≠ term) :
    sbStep timeout term s (⟨v, "UP"⟩, t) = ⟨s.code_buffer ++ v, t, ""⟩ := by
  unfold sbStep
  exact update_buffer_rel _ _ _ _ _ ht rfl hv

theorem sbStep_term (timeout : ℚ) (term : String) (s : SeqState) (v : String) (t : ℚ)
    (ht : t - s.last_keypress ≤ timeout) (hv : v = term) :
    sbStep timeout term s (⟨v, "UP"⟩, t) = ⟨"", t, pyDropLast (s.code_buffer ++ v)⟩ := by
  unfold sbStep
  exact update_buffer_term _ _ _ _ _ ht rfl hv

/-- Removing the last character of `buf ++ "#"` gives back `buf`. -/
theorem pyDropLast_hash (buf : String) : pyDropLast (buf ++ "#") = buf := by
  unfold pyDropLast
  rw [String.data_append]
  apply String.ext
  rw [show ("#" : String).data = ['#'] from rfl]
  exact List.dropLast_concat

/-- Entry `k` of the `rfftfreq` grid is `k * rate / n`. -/
theorem rfftfreq_getD (n : ℕ) (rate : ℚ) (k : ℕ) (hk : k < n / 2 + 1) :
    (rfftfreq n rate).getD k 0 = (k : ℚ) * rate / n := by
  unfold rfftfreq
  rw [List.getD_eq_getElem?_getD, List.getElem?_map, List.getElem?_range hk]
  rfl

/-- `decodeStep` once the SNR value is known. -/
theorem decodeStep_of_snr (thr : ℤ) (I : List ℕ) (b : Button) (snr : ℤ)
    (hs : snrOf I = some snr) :
    decodeStep thr I b
      = if thr ≤ snr then
          match keysGet (tone1 I, tone2 I) with
          | some k => some (snr, pressStep b k)
          | none => some (snr, b)
        else some (snr, releaseStep b) := by
  unfold decodeStep
  rw [hs]

/-! ## Claims -/

/-- C6: for every sequence-buffer update in which the elapsed time since
`last_keypress` exceeds the configured timeout, the buffer is cleared and
`last_keypress` is reset to the current time regardless of the button
activity of the iteration; `code` is clear and no symbol released in the
iteration is appended, so a partial sequence is discarded. -/
theorem claim_C6_timeout_clears (timeout : ℚ) (term : String) (b : Button) (now : ℚ)
    (s : SeqState) (ht : timeout < now - s.last_keypress) :
    update_buffer timeout term b now s
      = { code_buffer := "", last_keypress := now, code := "" } :=
  update_buffer_expired timeout term b now s (not_le.mpr ht)

/-- Witness for C6: buffer `"12"`, a release of `3` arriving 20 s after
the last keypress with timeout 10 s is dropped and the buffer cleared. -/
theorem claim_C6_timeout_clears_witness :
    (10 : ℚ) < 20 - (⟨"12", 0, ""⟩ : SeqState).last_keypress
      ∧ update_buffer 10 "#" ⟨"3", "UP"⟩ 20 ⟨"12", 0, ""⟩
          = { code_buffer := "", last_keypress := 20, code := "" } :=
  ⟨by norm_num, claim_C6_timeout_clears 10 "#" ⟨"3", "UP"⟩ 20 ⟨"12", 0, ""⟩ (by norm_num)⟩

/-- C4: the zero-noise case is not guarded.  At a chunk whose only energy
is in the two dominant bins (band intensities `[5,0,0,0,5,0,0,0]`), the
noise estimate is exactly zero and the classifier reaches
`snr = signal // noise` with a zero divisor: in the embedding the SNR and
the whole iteration are undefined (`none`) rather than resolving to a
guarded "no signal detected" iteration as the claim asserts. -/
theorem claim_C4_unguarded_zero_noise :
    noiseOf (toneIntensity fftZeroNoise rangesD) = 0
      ∧ snrOf (toneIntensity fftZeroNoise rangesD) = none
      ∧ engineStep cfgSeq rangesD (initState 0) ⟨some fftZeroNoise, 1⟩ = none := by
  have h1 : tone1_level [5, 0, 0, 0, 5, 0, 0, 0] = 5 := by decide
  have h2 : tone2_level [5, 0, 0, 0, 5, 0, 0, 0] = 5 := by decide
  have h3 : ([5, 0, 0, 0, 5, 0, 0, 0] : List ℕ).sum = 10 := by decide
  have hsnr : snrOf (toneIntensity fftZeroNoise rangesD) = none := by
    rw [toneIntensity_fftZeroNoise, snrOf_eval, h1, h2, h3]
    decide
  refine ⟨?_, hsnr, ?_⟩
  · rw [toneIntensity_fftZeroNoise]
    unfold noiseOf signalOf
    rw [h1, h2, h3]
    norm_num
  · apply engineStep_undef
    unfold decodeStep
    rw [hsnr]

/-- C10: for every intensity vector the dominant low tone is one of
{697, 770, 852, 941} and the dominant high tone one of
{1209, 1336, 1477, 1633}; the key map is total on those pairs, so the
lookup always yields some key `k`, and every above-threshold iteration
takes the press branch for `k` -- the missing-key branch is unreachable. -/
theorem claim_C10_lookup_total (I : List ℕ) :
    tone1 I ∈ ([697, 770, 852, 941] : List ℕ)
      ∧ tone2 I ∈ ([1209, 1336, 1477, 1633] : List ℕ)
      ∧ ∃ k, keysGet (tone1 I, tone2 I) = some k
          ∧ ∀ (thr snr : ℤ) (b b2 : Button),
              decodeStep thr I b = some (snr, b2) → thr ≤ snr → b2 = pressStep b k := by
  obtain ⟨k, hk⟩ := Option.isSome_iff_exists.mp (keysGet_tone_isSome I)
  refine ⟨tone1_mem I, tone2_mem I, k, hk, ?_⟩
  intro thr snr b b2 h hle
  cases hs : snrOf I with
  | none =>
      have hred : decodeStep thr I b = none := by
        unfold decodeStep
        rw [hs]
      rw [hred] at h
      cases h
  | some v =>
      have hred : decodeStep thr I b
          = if thr ≤ v then
              match keysGet (tone1 I, tone2 I) with
              | some k => some (v, pressStep b k)
              | none => some (v, b)
            else some (v, releaseStep b) := by
        unfold decodeStep
        rw [hs]
      rw [hred] at h
      by_cases hv : thr ≤ v
      · rw [if_pos hv, hk] at h
        injection h with h
        injection h with ha hb
        exact hb.symm
      · rw [if_neg hv] at h
        injection h with h
        injection h with ha hb
        rw [← ha] at hle
        exact absurd hle hv

/-- C8 as stated fails: with the default chunk size N = 3600 the decoded
chunk holds N/2 = 1800 samples, not N -- the configured chunk size counts
bytes and a sample is two bytes -- so the transform yields 901 = N/4 + 1
bins spaced 40/3 Hz = sampleRate/(N/2) apart, not N/2 + 1 bins spaced
sampleRate/N apart. -/
theorem claim_C8_counterexample :
    frombufferInt16Len 3600 = 1800
      ∧ (1800 : ℕ) ≠ 3600
      ∧ rfftBins (frombufferInt16Len 3600) = 901
      ∧ (901 : ℕ) ≠ 3600 / 2 + 1
      ∧ (rfftfreq (frombufferInt16Len 3600) 24000).getD 1 0
          - (rfftfreq (frombufferInt16Len 3600) 24000).getD 0 0 = 40 / 3
      ∧ (40 / 3 : ℚ) ≠ 24000 / 3600 := by
  refine ⟨rfl, by decide, rfl, by decide, ?_, by norm_num⟩
  rw [rfftfreq_getD (frombufferInt16Len 3600) 24000 1 (by decide),
    rfftfreq_getD (frombufferInt16Len 3600) 24000 0 (by decide),
    show frombufferInt16Len 3600 = 1800 from rfl]
  norm_num

/-- C8 amended: for an even positive configured chunk size N (in bytes),
the decoded chunk holds N/2 samples, the real transform produces
N/4 + 1 magnitude bins, the precomputed frequency grid has exactly that
many entries, and consecutive bins are 2·sampleRate/N Hz apart. -/
theorem claim_C8_amended (N : ℕ) (rate : ℚ) (hN : N % 2 = 0) (hpos : 0 < N) :
    frombufferInt16Len N = N / 2
      ∧ rfftBins (frombufferInt16Len N) = N / 4 + 1
      ∧ (rfftfreq (frombufferInt16Len N) rate).length = rfftBins (frombufferInt16Len N)
      ∧ ∀ k : ℕ, k + 1 < rfftBins (frombufferInt16Len N) →
          (rfftfreq (frombufferInt16Len N) rate).getD (k + 1) 0
            - (rfftfreq (frombufferInt16Len N) rate).getD k 0 = 2 * rate / N := by
  obtain ⟨m, rfl⟩ : ∃ m, N = 2 * m := ⟨N / 2, by omega⟩
  have hm2 : frombufferInt16Len (2 * m) = m := by
    unfold frombufferInt16Len
    omega
  have hm0 : m ≠ 0 := by omega
  refine ⟨rfl, ?_, ?_, ?_⟩
  · unfold rfftBins frombufferInt16Len
    omega
  · unfold rfftfreq rfftBins
    rw [List.length_map, List.length_range]
  · intro k hk
    rw [hm2] at hk ⊢
    unfold rfftBins at hk
    rw [rfftfreq_getD m rate (k + 1) hk, rfftfreq_getD m rate k (by omega)]
    have hmq : ((m : ℚ)) ≠ 0 := Nat.cast_ne_zero.mpr hm0
    push_cast
    field_simp
    ring

/-- Witness for C8 amended at the default configuration N = 3600,
sample rate 24000. -/
theorem claim_C8_amended_witness :
    (3600 % 2 = 0)
      ∧ (0 < 3600)
      ∧ (frombufferInt16Len 3600 = 3600 / 2
          ∧ rfftBins (frombufferInt16Len 3600) = 3600 / 4 + 1
          ∧ (rfftfreq (frombufferInt16Len 3600) 24000).length
              = rfftBins (frombufferInt16Len 3600)
          ∧ ∀ k : ℕ, k + 1 < rfftBins (frombufferInt16Len 3600) →
              (rfftfreq (frombufferInt16Len 3600) 24000).getD (k + 1) 0
                - (rfftfreq (frombufferInt16Len 3600) 24000).getD k 0 = 2 * 24000 / 3600) :=
  ⟨by decide, by decide, claim_C8_amended 3600 24000 (by decide) (by decide)⟩

/-- Slices of a list written through explicit indices. -/
theorem drop_take_map_range (l : List ℕ) : ∀ (n a : ℕ), a + n ≤ l.length →
    (l.drop a).take n = (List.range' a n).map (fun k => l.getD k 0) := by
  intro n
  induction n with
  | zero =>
      intro a _
      simp
  | succ n ih =>
      intro a h
      have ha : a < l.length := by omega
      rw [List.drop_eq_getElem_cons ha, List.take_succ_cons, ih (a + 1) (by omega),
        List.range'_succ, List.map_cons]
      congr 1
      rw [List.getD_eq_getElem l 0 ha]

set_option maxRecDepth 100000 in
set_option maxHeartbeats 1000000 in
/-- C9 as stated fails: the slice `fft[start:end]` excludes index `end`,
which is the last bin of the band's scanned range.  At the default
configuration band 0's range is `(51, 53)`; a chunk whose only energy
sits at bin 53 reports intensity 0 although the maximum over the range
including its last index is 10. -/
theorem claim_C9_counterexample :
    bandRanges defaultFreqs = rangesD
      ∧ toneIntensity fftBin53 rangesD = [0, 0, 0, 0, 0, 0, 0, 0]
      ∧ sliceAmax fftBin53 51 (53 + 1) = 10
      ∧ (0 : ℕ) ≠ 10 := by
  refine ⟨bandRanges_default, toneIntensity_fftBin53, ?_, by decide⟩
  decide

/-- C9 amended: each reported band intensity is the maximum transform
magnitude over the half-open range `[start, end)` of the band's
precomputed bin indices -- every bin from `start` up to but excluding
`end`. -/
theorem claim_C9_amended (fft : List ℕ) (h : fft.length = 901) (i : ℕ) (hi : i < 8) :
    (toneIntensity fft (bandRanges defaultFreqs)).getD i 0
      = amaxList ((List.range' (rangesD.getD i (0, 0)).1
          ((rangesD.getD i (0, 0)).2 - (rangesD.getD i (0, 0)).1)).map
            (fun k => fft.getD k 0)) := by
  rw [bandRanges_default]
  interval_cases i <;>
    (simp only [toneIntensity, rangesD, List.map_cons, List.map_nil, sliceAmax,
      List.getD_cons_zero, List.getD_cons_succ]
     norm_num
     rw [drop_take_map_range fft _ _ (by omega)]
     simp only [List.getD_eq_getElem?_getD])

/-! ### Concrete engine iterations used by the trace claims -/

theorem engineStep_A :
    engineStep cfgSeq rangesD (initState 0) ⟨some fftKey1, 1⟩
      = some ⟨⟨"1", "DOWN"⟩, 60, ⟨"", 0, ""⟩, false, false⟩ := by
  rw [engineStep_read cfgSeq rangesD (initState 0) fftKey1 1 60 _ (decodeStep_fftKey1 _)]
  rw [pressStep_ne _ _ (by decide)]
  rw [seqPhase_on_go cfgSeq 1 _ rfl _
    (update_buffer_quiet _ _ _ _ _ (by norm_num [cfgSeq, initState]) (by decide))
    (fun hx => hx.2 rfl)]
  rfl

theorem engineStep_B :
    engineStep cfgSeq rangesD ⟨⟨"1", "DOWN"⟩, 60, ⟨"", 0, ""⟩, false, false⟩ ⟨some fftLow, 2⟩
      = some ⟨⟨"1", "UP"⟩, 1, ⟨"1", 2, ""⟩, false, false⟩ := by
  rw [engineStep_read cfgSeq rangesD _ fftLow 2 1 _ (decodeStep_fftLow _)]
  rw [releaseStep_active _ (by decide) (by decide)]
  rw [seqPhase_on_go cfgSeq 2 _ rfl _
    (update_buffer_rel _ _ _ _ _ (by norm_num [cfgSeq]) rfl (by decide)) (fun hx => hx.2 rfl)]
  rfl

theorem engineStep_C_press :
    engineStep cfgSeq rangesD ⟨⟨"1", "UP"⟩, 1, ⟨"1", 2, ""⟩, false, false⟩ ⟨some fftKey1, 3⟩
      = some ⟨⟨"1", "HELD"⟩, 60, ⟨"1", 2, ""⟩, false, false⟩ := by
  rw [engineStep_read cfgSeq rangesD _ fftKey1 3 60 _ (decodeStep_fftKey1 _)]
  rw [pressStep_eq _ _ rfl]
  rw [seqPhase_on_go cfgSeq 3 _ rfl _
    (update_buffer_quiet _ _ _ _ _ (by norm_num [cfgSeq]) (by decide)) (fun hx => hx.2 rfl)]

theorem engineStep_C_fail :
    engineStep cfgSeq rangesD ⟨⟨"1", "UP"⟩, 1, ⟨"1", 2, ""⟩, false, false⟩ ⟨none, 3⟩
      = some ⟨⟨"1", "UP"⟩, 1, ⟨"11", 3, ""⟩, false, false⟩ := by
  rw [engineStep_fail cfgSeq rangesD _ 3]
  rw [seqPhase_on_go cfgSeq 3 _ rfl _
    (update_buffer_rel _ _ _ _ _ (by norm_num [cfgSeq]) rfl (by decide)) (fun hx => hx.2 rfl)]
  rfl

theorem engineStep_K1 :
    engineStep cfgKill rangesD (initState 0) ⟨some fftKey9, 1⟩
      = some ⟨⟨"9", "DOWN"⟩, 60, ⟨"", 0, ""⟩, false, false⟩ := by
  rw [engineStep_read cfgKill rangesD (initState 0) fftKey9 1 60 _ (decodeStep_fftKey9 _)]
  rw [pressStep_ne _ _ (by decide)]
  rw [seqPhase_on_go cfgKill 1 _ rfl _
    (update_buffer_quiet _ _ _ _ _ (by norm_num [cfgKill, cfgSeq, initState]) (by decide))
    (fun hx => absurd hx.1 (by decide))]
  rfl

theorem engineStep_K2 :
    engineStep cfgKill rangesD ⟨⟨"9", "DOWN"⟩, 60, ⟨"", 0, ""⟩, false, false⟩ ⟨some fftLow, 2⟩
      = some ⟨⟨"9", "UP"⟩, 1, ⟨"9", 2, ""⟩, false, false⟩ := by
  rw [engineStep_read cfgKill rangesD _ fftLow 2 1 _ (decodeStep_fftLow _)]
  rw [releaseStep_active _ (by decide) (by decide)]
  rw [seqPhase_on_go cfgKill 2 _ rfl _
    (update_buffer_rel _ _ _ _ _ (by norm_num [cfgKill, cfgSeq]) rfl (by decide))
    (fun hx => absurd hx.1 (by decide))]
  rfl

theorem engineStep_K3 :
    engineStep cfgKill rangesD ⟨⟨"9", "UP"⟩, 1, ⟨"9", 2, ""⟩, false, false⟩ ⟨some fftKeyHash, 3⟩
      = some ⟨⟨"#", "DOWN"⟩, 60, ⟨"9", 2, ""⟩, false, false⟩ := by
  rw [engineStep_read cfgKill rangesD _ fftKeyHash 3 60 _ (decodeStep_fftKeyHash _)]
  rw [pressStep_ne _ _ (by decide)]
  rw [seqPhase_on_go cfgKill 3 _ rfl _
    (update_buffer_quiet _ _ _ _ _ (by norm_num [cfgKill, cfgSeq]) (by decide))
    (fun hx => absurd hx.1 (by decide))]

theorem engineStep_K4 :
    engineStep cfgKill rangesD ⟨⟨"#", "DOWN"⟩, 60, ⟨"9", 2, ""⟩, false, false⟩ ⟨some fftLow, 4⟩
      = some ⟨⟨"#", "UP"⟩, 1, ⟨"", 4, "9"⟩, true, true⟩ := by
  rw [engineStep_read cfgKill rangesD _ fftLow 4 1 _ (decodeStep_fftLow _)]
  rw [releaseStep_active _ (by decide) (by decide)]
  have hu : update_buffer cfgKill.code_timeout cfgKill.code_terminator
      (⟨"#", "UP"⟩ : Button) 4 (⟨"9", 2, ""⟩ : SeqState) = ⟨"", 4, "9"⟩ := by
    rw [update_buffer_term _ _ _ _ _ (by norm_num [cfgKill, cfgSeq]) rfl
      (show (⟨"#", "UP"⟩ : Button).value = cfgKill.code_terminator from rfl)]
    have hdrop : pyDropLast ((⟨"9", 2, ""⟩ : SeqState).code_buffer ++ (⟨"#", "UP"⟩ : Button).value)
        = "9" := pyDropLast_hash "9"
    rw [hdrop]
  rw [seqPhase_on_kill cfgKill 4 _ rfl _ hu ⟨rfl, by decide⟩]

set_option maxRecDepth 100000 in
set_option maxHeartbeats 1000000 in
/-- Witness for C9 amended: a flat spectrum of 901 unit bins has band-0
intensity 1, the maximum over bins 51 and 52. -/
theorem claim_C9_amended_witness :
    (List.replicate 901 1 : List ℕ).length = 901
      ∧ (0 : ℕ) < 8
      ∧ (toneIntensity (List.replicate 901 1) (bandRanges defaultFreqs)).getD 0 0
          = amaxList ((List.range' (rangesD.getD 0 (0, 0)).1
              ((rangesD.getD 0 (0, 0)).2 - (rangesD.getD 0 (0, 0)).1)).map
                (fun k => (List.replicate 901 1 : List ℕ).getD k 0)) :=
  ⟨by decide, by decide, claim_C9_amended (List.replicate 901 1) (by decide) 0 (by decide)⟩

/-- C1 as stated fails: the button machine branches only on whether the
key differs from the current `value`, never on the status.  In the
reachable run press `1`, release, press `1` again, the third iteration
starts from status `UP` with the same value `1`; the claim's "status is
NONE or UP" disjunct demands `DOWN`, but the code yields `HELD`. -/
theorem claim_C1_counterexample :
    (runTrace cfgSeq rangesD (initState 0)
        [⟨some fftKey1, 1⟩, ⟨some fftLow, 2⟩, ⟨some fftKey1, 3⟩]).map (fun s => s.button)
      = [⟨"1", "DOWN"⟩, ⟨"1", "UP"⟩, ⟨"1", "HELD"⟩]
      ∧ decodeStep 9 (toneIntensity fftKey1 rangesD) ⟨"1", "UP"⟩ = some (60, ⟨"1", "HELD"⟩)
      ∧ (9 : ℤ) ≤ 60
      ∧ (⟨"1", "HELD"⟩ : Button) ≠ ⟨"1", "DOWN"⟩ := by
  refine ⟨?_, ?_, by decide, by decide⟩
  · rw [runTrace_cons_go _ _ _ _ _ _ engineStep_A rfl,
      runTrace_cons_go _ _ _ _ _ _ engineStep_B rfl,
      runTrace_cons_go _ _ _ _ _ _ engineStep_C_press rfl,
      runTrace_nil]
    rfl
  · rw [decodeStep_fftKey1 ⟨"1", "UP"⟩, pressStep_eq _ _ rfl]

/-- C1 amended: when the SNR is at or above the threshold and the lookup
yields key `k`, the button machine presses `k`: status `DOWN` with value
`k` when `k` differs from the current value (in particular from NONE,
whose value is empty), and `HELD` when `k` equals the current value --
regardless of the previous status, including `UP`. -/
theorem claim_C1_amended (thr : ℤ) (I : List ℕ) (snr : ℤ) (b : Button) (k : String)
    (hs : snrOf I = some snr) (hthr : thr ≤ snr)
    (hk : keysGet (tone1 I, tone2 I) = some k) :
    decodeStep thr I b = some (snr, pressStep b k)
      ∧ (b.value ≠ k → pressStep b k = ⟨k, "DOWN"⟩)
      ∧ (b.value = k → pressStep b k = ⟨k, "HELD"⟩) := by
  refine ⟨?_, pressStep_ne b k, pressStep_eq b k⟩
  rw [decodeStep_of_snr thr I b snr hs, if_pos hthr, hk]

/-- Witness for C1 amended at the key-1 chunk from idle. -/
theorem claim_C1_amended_witness :
    snrOf (toneIntensity fftKey1 rangesD) = some 60
      ∧ (9 : ℤ) ≤ 60
      ∧ keysGet (tone1 (toneIntensity fftKey1 rangesD), tone2 (toneIntensity fftKey1 rangesD))
          = some "1"
      ∧ (decodeStep 9 (toneIntensity fftKey1 rangesD) ⟨"", ""⟩
            = some (60, pressStep ⟨"", ""⟩ "1")
          ∧ ((⟨"", ""⟩ : Button).value ≠ "1" → pressStep ⟨"", ""⟩ "1" = ⟨"1", "DOWN"⟩)
          ∧ ((⟨"", ""⟩ : Button).value = "1" → pressStep ⟨"", ""⟩ "1" = ⟨"1", "HELD"⟩)) := by
  have h1 : snrOf (toneIntensity fftKey1 rangesD) = some 60 := by
    rw [toneIntensity_fftKey1]
    exact snrOf_one60 _ (by decide) (by decide) (by decide)
  have h2 : keysGet (tone1 (toneIntensity fftKey1 rangesD), tone2 (toneIntensity fftKey1 rangesD))
      = some "1" := by
    rw [toneIntensity_fftKey1]
    decide
  exact ⟨h1, by decide, h2, claim_C1_amended 9 _ 60 ⟨"", ""⟩ "1" h1 (by decide) h2⟩

/-- C2 as stated fails only in its "never two consecutive `UP`
iterations" clause: a failed chunk read leaves the button untouched, so
after press `1`, release (one `UP` iteration), a read-failure iteration
keeps status `UP` -- two consecutive iterations end with status `UP` in a
reachable run. -/
theorem claim_C2_counterexample :
    (runTrace cfgSeq rangesD (initState 0)
        [⟨some fftKey1, 1⟩, ⟨some fftLow, 2⟩, ⟨none, 3⟩]).map (fun s => s.button.status)
      = ["DOWN", "UP", "UP"] := by
  rw [runTrace_cons_go _ _ _ _ _ _ engineStep_A rfl,
    runTrace_cons_go _ _ _ _ _ _ engineStep_B rfl,
    runTrace_cons_go _ _ _ _ _ _ engineStep_C_fail rfl,
    runTrace_nil]
  rfl

/-- C2 amended: on a decoded below-threshold iteration, a `DOWN` or
`HELD` button becomes `UP` with its value retained and an `UP` button
becomes idle with value cleared; moreover no decoded iteration ever maps
an `UP` button to an `UP` button, so two consecutive iterations can both
end `UP` only when the second iteration's chunk read fails (decode
skipped). -/
theorem claim_C2_amended (thr : ℤ) (I : List ℕ) (snr : ℤ) (b : Button)
    (hs : snrOf I = some snr) (hlow : snr < thr) :
    (b.status = "DOWN" ∨ b.status = "HELD" →
        decodeStep thr I b = some (snr, ⟨b.value, "UP"⟩))
      ∧ (b.status = "UP" → decodeStep thr I b = some (snr, ⟨"", ""⟩))
      ∧ (∀ (I2 : List ℕ) (snr2 : ℤ) (b1 b2 : Button), b1.status = "UP" →
          decodeStep thr I2 b1 = some (snr2, b2) → b2.status ≠ "UP") := by
  have hred : decodeStep thr I b = some (snr, releaseStep b) := by
    rw [decodeStep_of_snr thr I b snr hs, if_neg (not_le.mpr hlow)]
  refine ⟨?_, ?_, ?_⟩
  · intro h
    rw [hred]
    rcases h with h | h <;>
      rw [releaseStep_active b (by rw [h]; decide) (by rw [h]; decide)]
  · intro h
    rw [hred, releaseStep_up b h]
  · intro I2 snr2 b1 b2 hb1 h2
    cases hs2 : snrOf I2 with
    | none =>
        have hred2 : decodeStep thr I2 b1 = none := by
          unfold decodeStep
          rw [hs2]
        rw [hred2] at h2
        cases h2
    | some v =>
        by_cases hv : thr ≤ v
        · obtain ⟨k, hk⟩ := Option.isSome_iff_exists.mp (keysGet_tone_isSome I2)
          have hred2 : decodeStep thr I2 b1 = some (v, pressStep b1 k) := by
            rw [decodeStep_of_snr thr I2 b1 v hs2, if_pos hv, hk]
          rw [hred2] at h2
          injection h2 with h2
          injection h2 with ha hb
          subst hb
          by_cases hval : b1.value = k
          · rw [pressStep_eq b1 k hval]
            simp
          · rw [pressStep_ne b1 k hval]
            simp
        · have hred2 : decodeStep thr I2 b1 = some (v, releaseStep b1) := by
            rw [decodeStep_of_snr thr I2 b1 v hs2, if_neg hv]
          rw [hred2] at h2
          injection h2 with h2
          injection h2 with ha hb
          subst hb
          rw [releaseStep_up b1 hb1]
          decide

/-- Witness for C2 amended: a flat below-threshold chunk releases a
`DOWN` button with value `1` to `UP`. -/
theorem claim_C2_amended_witness :
    snrOf (toneIntensity fftLow rangesD) = some 1
      ∧ (1 : ℤ) < 9
      ∧ decodeStep 9 (toneIntensity fftLow rangesD) ⟨"1", "DOWN"⟩ = some (1, ⟨"1", "UP"⟩) := by
  have h1 : snrOf (toneIntensity fftLow rangesD) = some 1 := by
    rw [toneIntensity_fftLow]
    exact snrOf_flat
  refine ⟨h1, by decide, ?_⟩
  have h2 := (claim_C2_amended 9 (toneIntensity fftLow rangesD) 1 ⟨"1", "DOWN"⟩ h1 (by decide)).1
  exact h2 (Or.inl rfl)

/-- C3 as stated fails: a read failure skips only the decode stage; the
sequence-buffer update still runs every iteration.  After press `1` and
release (buffer `"1"`), a read-failure iteration leaves the lingering
`UP` status in place and `update_buffer` appends the value again: the
buffer becomes `"11"` and `last_keypress` moves, contradicting
"buffer and lastKeypressTime unchanged". -/
theorem claim_C3_counterexample :
    (runTrace cfgSeq rangesD (initState 0)
        [⟨some fftKey1, 1⟩, ⟨some fftLow, 2⟩, ⟨none, 3⟩]).map (fun s => s.seq.code_buffer)
      = ["", "1", "11"]
      ∧ ("11" : String) ≠ "1" := by
  refine ⟨?_, by decide⟩
  rw [runTrace_cons_go _ _ _ _ _ _ engineStep_A rfl,
    runTrace_cons_go _ _ _ _ _ _ engineStep_B rfl,
    runTrace_cons_go _ _ _ _ _ _ engineStep_C_fail rfl,
    runTrace_nil]
  rfl

/-- C3 amended: on a read-failure iteration the decode stage is skipped
-- the button state and stored SNR are unchanged and the loop continues
-- but the sequence phase is NOT skipped: when sequence detection is
enabled the iteration still runs `update_buffer` (clearing `code` and
possibly changing the buffer and `last_keypress`), and only when it is
disabled is the whole state left untouched. -/
theorem claim_C3_amended (cfg : Config) (ranges : List (ℕ × ℕ)) (s : EngineState) (t : ℚ) :
    engineStep cfg ranges s ⟨none, t⟩ = some (seqPhase cfg t s)
      ∧ (seqPhase cfg t s).button = s.button
      ∧ (seqPhase cfg t s).snr = s.snr
      ∧ (cfg.enable_sequence = false → seqPhase cfg t s = s)
      ∧ (cfg.enable_sequence = true →
          (seqPhase cfg t s).seq
            = update_buffer cfg.code_timeout cfg.code_terminator s.button t s.seq) := by
  have hcore : (seqPhase cfg t s).button = s.button ∧ (seqPhase cfg t s).snr = s.snr
      ∧ (cfg.enable_sequence = true →
          (seqPhase cfg t s).seq
            = update_buffer cfg.code_timeout cfg.code_terminator s.button t s.seq) := by
    by_cases he : cfg.enable_sequence = true
    · by_cases hc : (update_buffer cfg.code_timeout cfg.code_terminator s.button t s.seq).code
          = cfg.kill_code ∧ cfg.kill_code ≠ ""
      · rw [seqPhase_on_kill cfg t s he _ rfl hc]
        exact ⟨rfl, rfl, fun _ => rfl⟩
      · rw [seqPhase_on_go cfg t s he _ rfl hc]
        exact ⟨rfl, rfl, fun _ => rfl⟩
    · rw [seqPhase_off cfg t s (Bool.not_eq_true _ ▸ Bool.of_not_eq_true he)]
      exact ⟨rfl, rfl, fun h => absurd h he⟩
  exact ⟨engineStep_fail cfg ranges s t, hcore.1, hcore.2.1,
    fun hf => seqPhase_off cfg t s hf, hcore.2.2⟩

/-- Witness for C3 amended at a concrete read-failure iteration from a
lingering `UP` state. -/
theorem claim_C3_amended_witness :
    engineStep cfgSeq rangesD ⟨⟨"1", "UP"⟩, 1, ⟨"1", 2, ""⟩, false, false⟩ ⟨none, 3⟩
        = some (seqPhase cfgSeq 3 ⟨⟨"1", "UP"⟩, 1, ⟨"1", 2, ""⟩, false, false⟩)
      ∧ (seqPhase cfgSeq 3 ⟨⟨"1", "UP"⟩, 1, ⟨"1", 2, ""⟩, false, false⟩).button
          = (⟨⟨"1", "UP"⟩, 1, ⟨"1", 2, ""⟩, false, false⟩ : EngineState).button
      ∧ (cfgSeq.enable_sequence = true →
          (seqPhase cfgSeq 3 ⟨⟨"1", "UP"⟩, 1, ⟨"1", 2, ""⟩, false, false⟩).seq
            = update_buffer cfgSeq.code_timeout cfgSeq.code_terminator
                (⟨⟨"1", "UP"⟩, 1, ⟨"1", 2, ""⟩, false, false⟩ : EngineState).button 3
                (⟨⟨"1", "UP"⟩, 1, ⟨"1", 2, ""⟩, false, false⟩ : EngineState).seq) := by
  have h := claim_C3_amended cfgSeq rangesD ⟨⟨"1", "UP"⟩, 1, ⟨"1", 2, ""⟩, false, false⟩ 3
  exact ⟨h.1, h.2.1, h.2.2.2.2⟩

/-- With sequence detection disabled an iteration never touches the
sequence state. -/
theorem engineStep_seq_disabled (cfg : Config) (ranges : List (ℕ × ℕ)) (s : EngineState)
    (inp : IterInput) (s2 : EngineState)
    (he : cfg.enable_sequence = false) (h : engineStep cfg ranges s inp = some s2) :
    s2.seq = s.seq := by
  obtain ⟨read, now⟩ := inp
  cases read with
  | none =>
      rw [engineStep_fail] at h
      injection h with h
      subst h
      rw [seqPhase_off cfg now s he]
  | some fft =>
      cases hd : decodeStep cfg.snr_threshold (toneIntensity fft ranges) s.button with
      | none =>
          rw [engineStep_undef cfg ranges s fft now hd] at h
          cases h
      | some p =>
          obtain ⟨snr, b⟩ := p
          rw [engineStep_read cfg ranges s fft now snr b hd] at h
          injection h with h
          subst h
          rw [seqPhase_off cfg now _ he]

/-- With sequence detection disabled `code` remains empty forever. -/
theorem runTrace_disabled_code (cfg : Config) (ranges : List (ℕ × ℕ))
    (he : cfg.enable_sequence = false) :
    ∀ (inputs : List IterInput) (s : EngineState), s.seq.code = "" →
      ∀ x ∈ runTrace cfg ranges s inputs, x.seq.code = "" := by
  intro inputs
  induction inputs with
  | nil =>
      intro s _ x hx
      rw [runTrace_nil] at hx
      cases hx
  | cons inp rest ih =>
      intro s hs x hx
      cases hstep : engineStep cfg ranges s inp with
      | none =>
          rw [runTrace_cons_none cfg ranges s inp rest hstep] at hx
          cases hx
      | some s1 =>
          have hseq : s1.seq.code = "" := by
            rw [engineStep_seq_disabled cfg ranges s inp s1 he hstep]
            exact hs
          cases hk : s1.kill with
          | true =>
              rw [runTrace_cons_kill cfg ranges s inp rest s1 hstep hk] at hx
              rcases List.mem_singleton.mp hx with rfl
              exact hseq
          | false =>
              rw [runTrace_cons_go cfg ranges s inp rest s1 hstep hk] at hx
              rcases List.mem_cons.mp hx with hx | hx
              · subst hx
                exact hseq
              · exact ih s1 hseq x hx

/-- C7: in every run, once the sequence phase produces a `code` equal to
the non-empty kill code, that very iteration sets the kill flag and
terminates the audio source, and it is the last iteration of the run;
with an empty kill code the kill flag (and the terminate call) never
happens; and with sequence detection disabled no code is ever produced,
so the kill path is vacuous. -/
theorem claim_C7_kill (cfg : Config) (ranges : List (ℕ × ℕ)) (t0 : ℚ)
    (inputs : List IterInput) (d : EngineState) :
    (cfg.enable_sequence = true → cfg.kill_code ≠ "" →
      ∀ i : ℕ, i < (runTrace cfg ranges (initState t0) inputs).length →
        ((runTrace cfg ranges (initState t0) inputs).getD i d).seq.code = cfg.kill_code →
        ((runTrace cfg ranges (initState t0) inputs).getD i d).kill = true
          ∧ ((runTrace cfg ranges (initState t0) inputs).getD i d).terminated = true
          ∧ i + 1 = (runTrace cfg ranges (initState t0) inputs).length)
      ∧ (cfg.kill_code = "" →
          ∀ x ∈ runTrace cfg ranges (initState t0) inputs,
            x.kill = false ∧ x.terminated = false)
      ∧ (cfg.enable_sequence = false →
          ∀ x ∈ runTrace cfg ranges (initState t0) inputs, x.seq.code = "") :=
  ⟨fun he hk i hi hc => runTrace_kill_code cfg ranges he hk inputs (initState t0) d i hi hc,
   fun hk x hx => runTrace_no_kill cfg ranges hk inputs (initState t0) rfl rfl x hx,
   fun he x hx => runTrace_disabled_code cfg ranges he inputs (initState t0) rfl x hx⟩

/-- Witness for C7: the run press `9`, release, press `#`, release with
kill code `"9"` produces `code = "9"` on iteration 4, which sets the kill
flag, terminates the source, and ends the 4-iteration trace. -/
theorem claim_C7_kill_witness :
    (runTrace cfgKill rangesD (initState 0)
        [⟨some fftKey9, 1⟩, ⟨some fftLow, 2⟩, ⟨some fftKeyHash, 3⟩, ⟨some fftLow, 4⟩]).length = 4
      ∧ ((runTrace cfgKill rangesD (initState 0)
            [⟨some fftKey9, 1⟩, ⟨some fftLow, 2⟩, ⟨some fftKeyHash, 3⟩,
              ⟨some fftLow, 4⟩]).getD 3 (initState 0)).kill = true
      ∧ ((runTrace cfgKill rangesD (initState 0)
            [⟨some fftKey9, 1⟩, ⟨some fftLow, 2⟩, ⟨some fftKeyHash, 3⟩,
              ⟨some fftLow, 4⟩]).getD 3 (initState 0)).terminated = true
      ∧ 3 + 1 = (runTrace cfgKill rangesD (initState 0)
            [⟨some fftKey9, 1⟩, ⟨some fftLow, 2⟩, ⟨some fftKeyHash, 3⟩,
              ⟨some fftLow, 4⟩]).length := by
  have htrace : runTrace cfgKill rangesD (initState 0)
      [⟨some fftKey9, 1⟩, ⟨some fftLow, 2⟩, ⟨some fftKeyHash, 3⟩, ⟨some fftLow, 4⟩]
      = [⟨⟨"9", "DOWN"⟩, 60, ⟨"", 0, ""⟩, false, false⟩,
         ⟨⟨"9", "UP"⟩, 1, ⟨"9", 2, ""⟩, false, false⟩,
         ⟨⟨"#", "DOWN"⟩, 60, ⟨"9", 2, ""⟩, false, false⟩,
         ⟨⟨"#", "UP"⟩, 1, ⟨"", 4, "9"⟩, true, true⟩] := by
    rw [runTrace_cons_go _ _ _ _ _ _ engineStep_K1 rfl,
      runTrace_cons_go _ _ _ _ _ _ engineStep_K2 rfl,
      runTrace_cons_go _ _ _ _ _ _ engineStep_K3 rfl,
      runTrace_cons_kill _ _ _ _ _ _ engineStep_K4 rfl]
  have hmain := (claim_C7_kill cfgKill rangesD 0
      [⟨some fftKey9, 1⟩, ⟨some fftLow, 2⟩, ⟨some fftKeyHash, 3⟩, ⟨some fftLow, 4⟩]
      (initState 0)).1 rfl (by decide) 3
      (by rw [htrace]; decide) (by rw [htrace]; rfl)
  refine ⟨by rw [htrace]; rfl, hmain.1, hmain.2.1, hmain.2.2⟩


/-- C5: with timeout 10 s and terminator `#`, any run of `update_buffer`
calls whose release pulses are `1`, `2`, `3`, `#` in that order, each
arriving within the timeout window of the previous keypress, and whose
other iterations are non-release iterations inside the window, produces:
an empty `code` on every iteration before the `#` release, `code = "123"`
exactly on the iteration processing the `#` release -- which is the last
considered -- and an empty buffer immediately after it. -/
theorem claim_C5_sequence (t0 t1 t2 t3 t4 : ℚ) (q1 q2 q3 q4 : List (Button × ℚ))
    (hq1 : ∀ e ∈ q1, e.1.status ≠ "UP" ∧ e.2 - t0 ≤ 10)
    (ht1 : t1 - t0 ≤ 10)
    (hq2 : ∀ e ∈ q2, e.1.status ≠ "UP" ∧ e.2 - t1 ≤ 10)
    (ht2 : t2 - t1 ≤ 10)
    (hq3 : ∀ e ∈ q3, e.1.status ≠ "UP" ∧ e.2 - t2 ≤ 10)
    (ht3 : t3 - t2 ≤ 10)
    (hq4 : ∀ e ∈ q4, e.1.status ≠ "UP" ∧ e.2 - t3 ≤ 10)
    (ht4 : t4 - t3 ≤ 10) :
    sbTrace 10 "#" ⟨"", t0, ""⟩
        (q1 ++ ((⟨"1", "UP"⟩, t1) :: (q2 ++ ((⟨"2", "UP"⟩, t2) ::
          (q3 ++ ((⟨"3", "UP"⟩, t3) :: (q4 ++ [(⟨"#", "UP"⟩, t4)])))))))
      = (List.replicate q1.length ⟨"", t0, ""⟩
          ++ ((⟨"1", t1, ""⟩ : SeqState) :: (List.replicate q2.length ⟨"1", t1, ""⟩
          ++ ((⟨"12", t2, ""⟩ : SeqState) :: (List.replicate q3.length ⟨"12", t2, ""⟩
          ++ ((⟨"123", t3, ""⟩ : SeqState)
                :: List.replicate q4.length ⟨"123", t3, ""⟩))))))
        ++ [⟨"", t4, "123"⟩]
      ∧ (sbTrace 10 "#" ⟨"", t0, ""⟩
          (q1 ++ ((⟨"1", "UP"⟩, t1) :: (q2 ++ ((⟨"2", "UP"⟩, t2) ::
            (q3 ++ ((⟨"3", "UP"⟩, t3) :: (q4 ++ [(⟨"#", "UP"⟩, t4)])))))))).getLast?
          = some ⟨"", t4, "123"⟩
      ∧ ∀ st ∈ (sbTrace 10 "#" ⟨"", t0, ""⟩
          (q1 ++ ((⟨"1", "UP"⟩, t1) :: (q2 ++ ((⟨"2", "UP"⟩, t2) ::
            (q3 ++ ((⟨"3", "UP"⟩, t3) :: (q4 ++ [(⟨"#", "UP"⟩, t4)])))))))).dropLast,
          st.code = "" := by
  have e1 : sbStep 10 "#" ⟨"", t0, ""⟩ (⟨"1", "UP"⟩, t1) = ⟨"1", t1, ""⟩ := by
    rw [sbStep_rel 10 "#" ⟨"", t0, ""⟩ "1" t1 ht1 (by decide)]
    rfl
  have e2 : sbStep 10 "#" ⟨"1", t1, ""⟩ (⟨"2", "UP"⟩, t2) = ⟨"12", t2, ""⟩ := by
    rw [sbStep_rel 10 "#" ⟨"1", t1, ""⟩ "2" t2 ht2 (by decide)]
    rfl
  have e3 : sbStep 10 "#" ⟨"12", t2, ""⟩ (⟨"3", "UP"⟩, t3) = ⟨"123", t3, ""⟩ := by
    rw [sbStep_rel 10 "#" ⟨"12", t2, ""⟩ "3" t3 ht3 (by decide)]
    rfl
  have e4 : sbStep 10 "#" ⟨"123", t3, ""⟩ (⟨"#", "UP"⟩, t4) = ⟨"", t4, "123"⟩ := by
    rw [sbStep_term 10 "#" ⟨"123", t3, ""⟩ "#" t4 ht4 rfl]
    rw [show (⟨"123", t3, ""⟩ : SeqState).code_buffer ++ "#" = "123" ++ "#" from rfl,
      pyDropLast_hash]
  have f1 : sbFold 10 "#" ⟨"", t0, ""⟩ q1 = ⟨"", t0, ""⟩ :=
    sbFold_quiet 10 "#" q1 ⟨"", t0, ""⟩ rfl hq1
  have f2 : sbFold 10 "#" ⟨"1", t1, ""⟩ q2 = ⟨"1", t1, ""⟩ :=
    sbFold_quiet 10 "#" q2 ⟨"1", t1, ""⟩ rfl hq2
  have f3 : sbFold 10 "#" ⟨"12", t2, ""⟩ q3 = ⟨"12", t2, ""⟩ :=
    sbFold_quiet 10 "#" q3 ⟨"12", t2, ""⟩ rfl hq3
  have f4 : sbFold 10 "#" ⟨"123", t3, ""⟩ q4 = ⟨"123", t3, ""⟩ :=
    sbFold_quiet 10 "#" q4 ⟨"123", t3, ""⟩ rfl hq4
  have g1 : sbTrace 10 "#" ⟨"", t0, ""⟩ q1 = List.replicate q1.length ⟨"", t0, ""⟩ :=
    sbTrace_quiet 10 "#" q1 ⟨"", t0, ""⟩ rfl hq1
  have g2 : sbTrace 10 "#" ⟨"1", t1, ""⟩ q2 = List.replicate q2.length ⟨"1", t1, ""⟩ :=
    sbTrace_quiet 10 "#" q2 ⟨"1", t1, ""⟩ rfl hq2
  have g3 : sbTrace 10 "#" ⟨"12", t2, ""⟩ q3 = List.replicate q3.length ⟨"12", t2, ""⟩ :=
    sbTrace_quiet 10 "#" q3 ⟨"12", t2, ""⟩ rfl hq3
  have g4 : sbTrace 10 "#" ⟨"123", t3, ""⟩ q4 = List.replicate q4.length ⟨"123", t3, ""⟩ :=
    sbTrace_quiet 10 "#" q4 ⟨"123", t3, ""⟩ rfl hq4
  have htr : sbTrace 10 "#" ⟨"", t0, ""⟩
      (q1 ++ ((⟨"1", "UP"⟩, t1) :: (q2 ++ ((⟨"2", "UP"⟩, t2) ::
        (q3 ++ ((⟨"3", "UP"⟩, t3) :: (q4 ++ [(⟨"#", "UP"⟩, t4)])))))))
      = (List.replicate q1.length ⟨"", t0, ""⟩
          ++ ((⟨"1", t1, ""⟩ : SeqState) :: (List.replicate q2.length ⟨"1", t1, ""⟩
          ++ ((⟨"12", t2, ""⟩ : SeqState) :: (List.replicate q3.length ⟨"12", t2, ""⟩
          ++ ((⟨"123", t3, ""⟩ : SeqState)
                :: List.replicate q4.length ⟨"123", t3, ""⟩))))))
        ++ [⟨"", t4, "123"⟩] := by
    rw [sbTrace_append 10 "#" q1 _ ⟨"", t0, ""⟩, f1, g1, sbTrace_cons, e1,
      sbTrace_append 10 "#" q2 _ ⟨"1", t1, ""⟩, f2, g2, sbTrace_cons, e2,
      sbTrace_append 10 "#" q3 _ ⟨"12", t2, ""⟩, f3, g3, sbTrace_cons, e3,
      sbTrace_append 10 "#" q4 _ ⟨"123", t3, ""⟩, f4, g4, sbTrace_cons, e4,
      sbTrace_nil]
    simp only [List.append_assoc, List.cons_append, List.nil_append, List.append_nil]
  refine ⟨htr, ?_, ?_⟩
  · rw [htr]
    exact List.getLast?_concat _
  · intro st hst
    rw [htr, List.dropLast_concat] at hst
    simp only [List.mem_append, List.mem_cons, List.mem_replicate] at hst
    rcases hst with ⟨-, rfl⟩ | (rfl | ⟨-, rfl⟩ | rfl | ⟨-, rfl⟩ | rfl | ⟨-, rfl⟩) <;> rfl

/-- Witness for C5 with no interleaved iterations and release times
1, 2, 3, 4 from an initial keypress clock of 0. -/
theorem claim_C5_sequence_witness :
    (∀ e ∈ ([] : List (Button × ℚ)), e.1.status ≠ "UP" ∧ e.2 - (0 : ℚ) ≤ 10)
      ∧ (1 : ℚ) - 0 ≤ 10
      ∧ (sbTrace 10 "#" ⟨"", 0, ""⟩
          (([] : List (Button × ℚ)) ++ ((⟨"1", "UP"⟩, (1 : ℚ)) :: (([] : List (Button × ℚ)) ++ ((⟨"2", "UP"⟩, (2 : ℚ)) :: (([] : List (Button × ℚ)) ++ ((⟨"3", "UP"⟩, (3 : ℚ)) :: (([] : List (Button × ℚ)) ++ [(⟨"#", "UP"⟩, (4 : ℚ))])))))))).getLast?
          = some ⟨"", 4, "123"⟩ := by
  refine ⟨by simp, by norm_num, ?_⟩
  exact (claim_C5_sequence 0 1 2 3 4 [] [] [] []
    (by simp) (by norm_num) (by simp) (by norm_num)
    (by simp) (by norm_num) (by simp) (by norm_num)).2.1

end RtlDtmf
